import Mathlib

/-!
Verification development for the pyc-parser compiler and virtual machine.

This file gives a shallow embedding of the back half of the pipeline:
the semantic analyzer (`SemanticAnalyzer` in semantic_analyzer.py, here the
`visitStmt`/`visitExpr` family), the code generator (`CodeGenerator` in
codegen.py, here `generateCode`/`emitInstruction`/`generate`), and the
stack-based virtual machine (`VM`/`FunctionObject` in vm.py, here
`execInstrWith`/`run`/`FunctionObject.call`).

Conventions of the embedding:
* Python runtime values are the inductive `Value`; Python floats are modelled
  as rationals (exact arithmetic; every numeric literal in the claims is
  exactly representable).
* Python dicts keyed by strings become association lists with
  first-match lookup and in-place update (`lookupA`, `assocSet`), which
  matches dict semantics for every operation the code performs.
* Exceptions become `Except VMErr`; the unbounded `while` loop of the VM
  becomes a fuel-indexed runner `run` (fuel exhaustion is the distinguished
  error `.outOfFuel`, never confused with a runtime error of the program).
* `print` output is recorded in the state (`output`), and — purely as ghost
  instrumentation for stating when a DEF_FUNCTION instruction has executed —
  each executed DEF_FUNCTION appends the defined name to the write-only
  field `defLog`; no instruction ever reads `output` or `defLog`.
-/

namespace PycParser

/-- Association-list lookup, first match wins (Python dict access `d[k]`). -/
def lookupA {α : Type} : List (String × α) → String → Option α
  | [], _ => none
  | (k, v) :: rest, key => if k = key then some v else lookupA rest key

/-- Association-list update (Python dict assignment `d[k] = v`):
replaces the first binding of the key in place, else appends. -/
def assocSet {α : Type} (key : String) (val : α) : List (String × α) → List (String × α)
  | [] => [(key, val)]
  | (k, v) :: rest => if k = key then (key, val) :: rest else (k, v) :: assocSet key val rest

/-- Runtime values of the interpreted language (Python values held on the
VM's stack, in its environments, and in the constant pool).  Python floats
are modelled as rationals. -/
inductive Value : Type
  | int (n : Int)
  | float (q : Rat)
  | bool (b : Bool)
  | str (s : String)
  | none
  | list (xs : List Value)

/-- Python `isinstance(v, int)` — `True` for ints and for bools
(Python's `bool` is a subclass of `int`). -/
def isIntInst : Value → Bool
  | .int _ => true
  | .bool _ => true
  | _ => false

/-- The integer a Python int-instance stands for (bools are 0/1). -/
def toIntInst : Value → Int
  | .int n => n
  | .bool b => if b then 1 else 0
  | _ => 0

/-- Numeric view: ints, bools and floats as rationals; `none` otherwise. -/
def toRatQ : Value → Option Rat
  | .int n => some (mkRat n 1)
  | .bool b => some (mkRat (if b then 1 else 0) 1)
  | .float q => some q
  | _ => Option.none

/-- Python truthiness: `0`, `0.0`, `False`, `None`, `""` and `[]` are falsy. -/
def truthy : Value → Bool
  | .int n => n != 0
  | .float q => q != 0
  | .bool b => b
  | .str s => s != ""
  | .none => false
  | .list xs => !xs.isEmpty

mutual
/-- Python `==` on runtime values: numeric kinds (int/bool/float) compare by
numeric value, strings and `None` by identity of kind and content, lists
element-wise; values of unrelated kinds compare unequal. -/
def pyEq : Value → Value → Bool
  | .str a, .str b => a = b
  | .none, .none => true
  | .list xs, .list ys => pyEqList xs ys
  | a, b =>
    match toRatQ a, toRatQ b with
    | some qa, some qb => qa = qb
    | _, _ => false

/-- Element-wise Python `==` on lists. -/
def pyEqList : List Value → List Value → Bool
  | [], [] => true
  | x :: xs, y :: ys => pyEq x y && pyEqList xs ys
  | _, _ => false
end

/-- Python `in` for the constant pool (`val not in self.bytecode.constants`),
i.e. membership up to Python `==`. -/
def pyMem (v : Value) : List Value → Bool
  | [] => false
  | x :: xs => pyEq x v || pyMem v xs

/-- Python `list.index` up to `==` (total here; the generator only calls it
after the collection pass has inserted the value, so the miss branch of the
Python `index`, a `ValueError`, is unreachable). -/
def pyIndex (v : Value) : List Value → Nat
  | [] => 0
  | x :: xs => if pyEq x v then 0 else pyIndex v xs + 1

/-- Python `list.index` for the name pool (exact string equality). -/
def strIndex (s : String) : List String → Nat
  | [] => 0
  | x :: xs => if x = s then 0 else strIndex s xs + 1

example : pyEq (.int 3) (.int 3) = true := rfl
example : pyEq (.int 1) (.bool true) = true := rfl
example : pyEq (.float (mkRat 7 1)) (.int 7) = true := rfl
example : pyEq (.str "a") (.int 0) = false := rfl
example : pyEqList [.int 1] [.float (mkRat 1 1)] = true := rfl
example : truthy (.list []) = false := rfl

/-! ## Intermediate representation (semantic_analyzer.py: `IRInstruction`, `IR`) -/

/-- One operand of an IR instruction.  Python stores heterogeneous values in
`IRInstruction.args`; the embedding tags the kinds that actually occur:
literal values (`LOAD_CONST`, the `None` argument of `RETURN_VALUE`),
name/label strings, argument counts, and parameter-name lists
(`DEF_FUNCTION`'s second argument). -/
inductive IRArg : Type
  | val (v : Value)
  | str (s : String)
  | nat (n : Nat)
  | strList (l : List String)

/-- A single IR instruction: an opcode tag plus its operand list. -/
structure IRInstruction : Type where
  op : String
  args : List IRArg

/-- The IR of a whole program: top-level instructions plus the function
table `functions[name] = (instrs, params)` (semantic_analyzer.py `IR`). -/
structure IR : Type where
  instructions : List IRInstruction
  functions : List (String × (List IRInstruction × List String))

/-! ## Abstract syntax (astmod.py)

The tree handed to the analyzer.  Function-call targets are restricted to the
direct-by-name form: `visit_Call` raises an unconditional internal error
("Complex function calls not supported") for any other callee shape, so only
the name reaches the IR. -/

mutual
inductive Expr : Type
  | lit (v : Value)
  | var (name : String)
  | binary (op : String) (left right : Expr)
  | unary (op : String) (e : Expr)
  | call (funcName : String) (args : List Expr)
  | listLit (items : List Expr)

inductive Stmt : Type
  | exprStmt (e : Expr)
  | assign (name : String) (e : Expr)
  | ifS (cond : Expr) (thenBlock : Stmt) (elseBlock : Option Stmt)
  | whileS (cond : Expr) (body : Stmt)
  | forS (varname : String) (iterable : Expr) (body : Stmt)
  | funcDef (name : String) (params : List String) (body : Stmt)
  | ret (e : Option Expr)
  | pass
  | printS (args : List Expr)
  | block (stmts : List Stmt)
end

/-! ## Semantic analyzer (semantic_analyzer.py: `SemanticAnalyzer`) -/

/-- A symbol-table entry (`Symbol`): name, type tag, scope kind. -/
structure Symbol : Type where
  name : String
  type : String
  scope : String

/-- Analyzer state threaded through the traversal: the label counter and
function table of the `IR` being built, the scope stack of the
`SymbolTable` (innermost scope FIRST here; the Python list keeps the
innermost LAST and iterates it reversed, which is the same search order),
plus `current_function` and the (write-only) `loop_labels` stack. -/
structure AnState : Type where
  labelCounter : Nat
  functions : List (String × (List IRInstruction × List String))
  scopes : List (List (String × Symbol))
  currentFunction : Option String
  loopLabels : List (String × String)

/-- Embeds `IR.new_label`: returns "L{counter}" and increments the counter. -/
def newLabel (st : AnState) : String × AnState :=
  ("L" ++ toString st.labelCounter, { st with labelCounter := st.labelCounter + 1 })

/-- Embeds `SymbolTable.define`: add a symbol to the innermost scope. -/
def stDefine (name type scope : String) (st : AnState) : AnState :=
  match st.scopes with
  | [] => st
  | inner :: rest => { st with scopes := assocSet name ⟨name, type, scope⟩ inner :: rest }

/-- Embeds `SymbolTable.push_scope`. -/
def stPushScope (st : AnState) : AnState :=
  { st with scopes := [] :: st.scopes }

/-- Embeds `SymbolTable.pop_scope` (no-op at the outermost scope). -/
def stPopScope (st : AnState) : AnState :=
  match st.scopes with
  | _ :: rest@(_ :: _) => { st with scopes := rest }
  | _ => st

/-- Embeds `SymbolTable.lookup`: innermost-to-outermost search (result is only ever
used for diagnostics; `visit_Var` ignores it). -/
def stLookup (name : String) (st : AnState) : Option Symbol :=
  let rec go : List (List (String × Symbol)) → Option Symbol
    | [] => Option.none
    | scope :: rest =>
      match lookupA scope name with
      | some s => some s
      | Option.none => go rest
  go st.scopes

/-- The binary-operator table of `visit_Binary` (`op_map`); unknown
operators fall back to `node.op.upper()`. -/
def binOpIR (op : String) : String :=
  if op = "+" then "ADD"
  else if op = "-" then "SUB"
  else if op = "*" then "MUL"
  else if op = "/" then "DIV"
  else if op = "%" then "MOD"
  else if op = "==" then "EQ"
  else if op = "!=" then "NEQ"
  else if op = "<" then "LT"
  else if op = ">" then "GT"
  else if op = "<=" then "LE"
  else if op = ">=" then "GE"
  else if op = "and" then "AND"
  else if op = "or" then "OR"
  else op.toUpper

/-- The unary-operator table of `visit_Unary`. -/
def unOpIR (op : String) : String :=
  if op = "-" then "NEGATE"
  else if op = "+" then "POS"
  else if op = "not" then "NOT"
  else op.toUpper

mutual
/-- Embeds the `SemanticAnalyzer.visit_*` methods for expressions.  The Python emits into
`self.ir.instructions`; the embedding returns the emitted instruction list
together with the updated analyzer state. -/
def visitExpr : Expr → AnState → List IRInstruction × AnState
  | .lit v, st => ([⟨"LOAD_CONST", [.val v]⟩], st)
  | .var name, st =>
    -- visit_Var: the symbol-table lookup result is discarded.
    let _ := stLookup name st
    ([⟨"LOAD", [.str name]⟩], st)
  | .binary op l r, st =>
    let p1 := visitExpr l st
    let p2 := visitExpr r p1.2
    (p1.1 ++ p2.1 ++ [⟨binOpIR op, []⟩], p2.2)
  | .unary op e, st =>
    let p1 := visitExpr e st
    (p1.1 ++ [⟨unOpIR op, []⟩], p1.2)
  | .call fname args, st =>
    let p1 := visitExprList args st
    (p1.1 ++ [⟨"CALL_FUNCTION", [.str fname, .nat args.length]⟩], p1.2)
  | .listLit items, st =>
    let p1 := visitExprList items st
    (p1.1 ++ [⟨"BUILD_LIST", [.nat items.length]⟩], p1.2)

/-- Left-to-right lowering of an expression list (call arguments, list
literal elements, print arguments). -/
def visitExprList : List Expr → AnState → List IRInstruction × AnState
  | [], st => ([], st)
  | e :: es, st =>
    let p1 := visitExpr e st
    let p2 := visitExprList es p1.2
    (p1.1 ++ p2.1, p2.2)

/-- Embeds the `SemanticAnalyzer.visit_*` methods for statements. -/
def visitStmt : Stmt → AnState → List IRInstruction × AnState
  | .exprStmt e, st =>
    let p1 := visitExpr e st
    (p1.1 ++ [⟨"POP", []⟩], p1.2)
  | .assign name e, st =>
    let p1 := visitExpr e st
    (p1.1 ++ [⟨"STORE", [.str name]⟩], stDefine name "any" "local" p1.2)
  | .ifS cond thenB elseB, st =>
    let l1 := newLabel st
    let l2 := newLabel l1.2
    let elseLabel := l1.1
    let endLabel := l2.1
    let p1 := visitExpr cond l2.2
    let p2 := visitStmt thenB p1.2
    let p3 :=
      match elseB with
      | some b => visitStmt b p2.2
      | Option.none => ([], p2.2)
    (p1.1 ++ [⟨"JUMP_IF_FALSE", [.str elseLabel]⟩] ++ p2.1 ++ [⟨"JUMP", [.str endLabel]⟩]
       ++ [⟨"LABEL", [.str elseLabel]⟩] ++ p3.1 ++ [⟨"LABEL", [.str endLabel]⟩], p3.2)
  | .whileS cond body, st =>
    let l1 := newLabel st
    let l2 := newLabel l1.2
    let loopLabel := l1.1
    let exitLabel := l2.1
    let st3 := { l2.2 with loopLabels := (exitLabel, loopLabel) :: l2.2.loopLabels }
    let p1 := visitExpr cond st3
    let p2 := visitStmt body p1.2
    let st6 := { p2.2 with loopLabels := p2.2.loopLabels.tail }
    ([⟨"LABEL", [.str loopLabel]⟩] ++ p1.1 ++ [⟨"JUMP_IF_FALSE", [.str exitLabel]⟩]
       ++ p2.1 ++ [⟨"JUMP", [.str loopLabel]⟩] ++ [⟨"LABEL", [.str exitLabel]⟩], st6)
  | .forS varname iterable body, st =>
    let l1 := newLabel st
    let l2 := newLabel l1.2
    let loopLabel := l1.1
    let exitLabel := l2.1
    let st3 := { l2.2 with loopLabels := (exitLabel, loopLabel) :: l2.2.loopLabels }
    let st4 := stDefine varname "any" "local" st3
    let p1 := visitExpr iterable st4
    let p2 := visitStmt body p1.2
    let st7 := { p2.2 with loopLabels := p2.2.loopLabels.tail }
    (p1.1 ++ [⟨"SETUP_LOOP", []⟩] ++ [⟨"LABEL", [.str loopLabel]⟩]
       ++ [⟨"FOR_ITER", [.str exitLabel, .str varname]⟩] ++ p2.1
       ++ [⟨"JUMP", [.str loopLabel]⟩] ++ [⟨"LABEL", [.str exitLabel]⟩], st7)
  | .funcDef name params body, st =>
    -- visit_FuncDef: body lowered into a fresh instruction list, then an
    -- unconditional bare RETURN_VALUE is appended (note: no LOAD_CONST
    -- None before it), the pair is stored in the function table, and the
    -- outer sequence receives only the DEF_FUNCTION instruction.
    let st1 := stPushScope { st with currentFunction := some name }
    let st2 := params.foldl (fun acc p => stDefine p "any" "param" acc) st1
    let p1 := visitStmt body st2
    let bodyCode := p1.1 ++ [⟨"RETURN_VALUE", [.val .none]⟩]
    let st4 := { p1.2 with functions := assocSet name (bodyCode, params) p1.2.functions }
    let st5 := stPopScope st4
    ([⟨"DEF_FUNCTION", [.str name, .strList params]⟩],
     { st5 with currentFunction := st.currentFunction })
  | .ret (some e), st =>
    let p1 := visitExpr e st
    (p1.1 ++ [⟨"RETURN_VALUE", [.val .none]⟩], p1.2)
  | .ret Option.none, st =>
    ([⟨"LOAD_CONST", [.val .none]⟩, ⟨"RETURN_VALUE", [.val .none]⟩], st)
  | .pass, st => ([⟨"NOP", []⟩], st)
  | .printS args, st =>
    let p1 := visitExprList args st
    (p1.1 ++ [⟨"PRINT", [.nat args.length]⟩], p1.2)
  | .block stmts, st => visitStmtList stmts st

/-- Sequential lowering of a statement list (a `Block` or the `Program`). -/
def visitStmtList : List Stmt → AnState → List IRInstruction × AnState
  | [], st => ([], st)
  | s :: ss, st =>
    let p1 := visitStmt s st
    let p2 := visitStmtList ss p1.2
    (p1.1 ++ p2.1, p2.2)
end

/-- Fresh analyzer state (`SemanticAnalyzer.__init__`: empty IR, one global
scope, no current function). -/
def initAnState : AnState :=
  { labelCounter := 0, functions := [], scopes := [[]],
    currentFunction := Option.none, loopLabels := [] }

/-- Embeds `SemanticAnalyzer.analyze`: lower a program (a statement list) to IR
from a fresh analyzer. -/
def analyze (prog : List Stmt) : IR :=
  let p := visitStmtList prog initAnState
  { instructions := p.1, functions := p.2.functions }

/-! ## Code generator (codegen.py: `Bytecode`, `OPCODES`, `OPCODE_ARGS`,
`CodeGenerator`) -/

/-- Compiled bytecode (`Bytecode`): flat code array, constant pool, name
pool, compiled function table, and the accumulated label-position map. -/
structure Bytecode : Type where
  code : List Nat
  constants : List Value
  names : List String
  functions : List (String × (List Nat × List String))
  labelPositions : List (String × Nat)

/-- The `OPCODES` table (opcode name → number); `Option.none` for a name not
in the table. -/
def opcodeNum (op : String) : Option Nat :=
  if op = "LOAD_CONST" then some 1
  else if op = "LOAD" then some 2
  else if op = "STORE" then some 3
  else if op = "POP" then some 4
  else if op = "ADD" then some 5
  else if op = "SUB" then some 6
  else if op = "MUL" then some 7
  else if op = "DIV" then some 8
  else if op = "MOD" then some 9
  else if op = "NEGATE" then some 10
  else if op = "POS" then some 11
  else if op = "NOT" then some 12
  else if op = "EQ" then some 13
  else if op = "NEQ" then some 14
  else if op = "LT" then some 15
  else if op = "GT" then some 16
  else if op = "LE" then some 17
  else if op = "GE" then some 18
  else if op = "AND" then some 19
  else if op = "OR" then some 20
  else if op = "JUMP" then some 21
  else if op = "JUMP_IF_FALSE" then some 22
  else if op = "LABEL" then some 23
  else if op = "PRINT" then some 24
  else if op = "CALL_FUNCTION" then some 25
  else if op = "RETURN_VALUE" then some 26
  else if op = "NOP" then some 27
  else if op = "BUILD_LIST" then some 28
  else if op = "SETUP_LOOP" then some 29
  else if op = "FOR_ITER" then some 30
  else if op = "DEF_FUNCTION" then some 31
  else Option.none

/-- The `OPCODE_ARGS` table (opcode name → declared operand count) used by
the sizing pass; `Option.none` for opcodes not listed (sized as bare
opcodes).  Note the entry DEF_FUNCTION → 2. -/
def opcodeArgs (op : String) : Option Nat :=
  if op = "LOAD_CONST" then some 1
  else if op = "LOAD" then some 1
  else if op = "STORE" then some 1
  else if op = "JUMP" then some 1
  else if op = "JUMP_IF_FALSE" then some 1
  else if op = "FOR_ITER" then some 2
  else if op = "PRINT" then some 1
  else if op = "CALL_FUNCTION" then some 2
  else if op = "BUILD_LIST" then some 1
  else if op = "DEF_FUNCTION" then some 2
  else Option.none

/-- Embeds `CodeGenerator._collect_from_instrs` for the constant pool: first-seen
order, deduplicated by Python `==`. -/
def collectConstants (instrs : List IRInstruction) (acc : List Value) : List Value :=
  instrs.foldl
    (fun cs i =>
      if i.op = "LOAD_CONST" then
        match i.args with
        | .val v :: _ => if pyMem v cs then cs else cs ++ [v]
        | _ => cs
      else cs)
    acc

/-- Embeds `CodeGenerator._collect_from_instrs` for the name pool: the first
argument of LOAD/STORE/CALL_FUNCTION/DEF_FUNCTION when it is a string. -/
def collectNames (instrs : List IRInstruction) (acc : List String) : List String :=
  instrs.foldl
    (fun ns i =>
      if i.op = "LOAD" ∨ i.op = "STORE" ∨ i.op = "CALL_FUNCTION" ∨ i.op = "DEF_FUNCTION" then
        match i.args with
        | .str n :: _ => if ns.contains n then ns else ns ++ [n]
        | _ => ns
      else ns)
    acc

/-- First (sizing) pass of `CodeGenerator._generate_code`: walk the
instruction sequence keeping a running offset; a LABEL records the current
offset under its label and occupies no space; every other instruction
advances the offset by 1 plus its `OPCODE_ARGS` entry (0 if absent). -/
def sizeLabelPositions : List IRInstruction → Nat → List (String × Nat) → List (String × Nat)
  | [], _, acc => acc
  | i :: rest, pos, acc =>
    if i.op = "LABEL" then
      match i.args with
      | .str l :: _ => sizeLabelPositions rest pos (assocSet l pos acc)
      | _ => sizeLabelPositions rest pos acc
    else
      sizeLabelPositions rest (pos + 1 + (opcodeArgs i.op).getD 0) acc

/-- Name-pool index of `_emit_instruction`:
`names.index(name) if name in names else 0`. -/
def nameIdx (names : List String) (name : String) : Nat :=
  if names.contains name then strIndex name names else 0

/-- Embeds `CodeGenerator._emit_instruction`: the flat integers one IR instruction
emits (LABELs emit nothing).  Errors only on an opcode name missing from
`OPCODES` ("Unknown IR operation"), or on an operand list whose shape the
Python code would crash on — neither is reachable from analyzer output. -/
def emitInstruction (constants : List Value) (names : List String)
    (labelPositions : List (String × Nat)) (i : IRInstruction) : Except String (List Nat) :=
  if i.op = "LABEL" then .ok []
  else if i.op = "LOAD_CONST" then
    match i.args with
    | .val v :: _ => .ok [1, pyIndex v constants]
    | _ => .error "malformed LOAD_CONST"
  else if i.op = "LOAD" then
    match i.args with
    | .str n :: _ => .ok [2, nameIdx names n]
    | _ => .error "malformed LOAD"
  else if i.op = "STORE" then
    match i.args with
    | .str n :: _ => .ok [3, nameIdx names n]
    | _ => .error "malformed STORE"
  else if i.op = "JUMP" then
    match i.args with
    | .str l :: _ => .ok [21, (lookupA labelPositions l).getD 0]
    | _ => .error "malformed JUMP"
  else if i.op = "JUMP_IF_FALSE" then
    match i.args with
    | .str l :: _ => .ok [22, (lookupA labelPositions l).getD 0]
    | _ => .error "malformed JUMP_IF_FALSE"
  else if i.op = "FOR_ITER" then
    match i.args with
    | .str l :: .str varname :: _ =>
      .ok [30, (lookupA labelPositions l).getD 0, nameIdx names varname]
    | _ => .error "malformed FOR_ITER"
  else if i.op = "CALL_FUNCTION" then
    match i.args with
    | .str fname :: .nat n :: _ => .ok [25, nameIdx names fname, n]
    | _ => .error "malformed CALL_FUNCTION"
  else if i.op = "PRINT" then
    match i.args with
    | .nat n :: _ => .ok [24, n]
    | _ => .ok [24, 1]
  else if i.op = "BUILD_LIST" then
    match i.args with
    | .nat n :: _ => .ok [28, n]
    | _ => .ok [28, 0]
  else if i.op = "DEF_FUNCTION" then
    -- Note: only the name-pool index is emitted (the params operand is
    -- commented out in the source), so the instruction occupies 2 slots.
    match i.args with
    | .str fname :: _ => .ok [31, nameIdx names fname]
    | _ => .error "malformed DEF_FUNCTION"
  else if i.op = "RETURN_VALUE" then .ok [26]
  else if i.op = "POP" then .ok [4]
  else if i.op = "NOP" then .ok [27]
  else
    match opcodeNum i.op with
    | some n => .ok [n]
    | Option.none => .error ("Unknown IR operation: " ++ i.op)

/-- Second (emission) pass: concatenate the emitted integers of a
sequence. -/
def emitAll (constants : List Value) (names : List String)
    (labelPositions : List (String × Nat)) : List IRInstruction → Except String (List Nat)
  | [] => .ok []
  | i :: rest => do
    let c ← emitInstruction constants names labelPositions i
    let cs ← emitAll constants names labelPositions rest
    .ok (c ++ cs)

/-- Embeds `CodeGenerator._generate_code` on one instruction sequence: the sizing
pass's label map together with the emitted flat code. -/
def generateCode (constants : List Value) (names : List String)
    (instrs : List IRInstruction) : Except String (List (String × Nat) × List Nat) := do
  let lp := sizeLabelPositions instrs 0 []
  let code ← emitAll constants names lp instrs
  .ok (lp, code)

/-- Embeds `CodeGenerator.generate`: collect both pools over the top-level code and
every function body, generate the top-level code, then generate each
function body into the function table (all sequences share the pools). -/
def generate (ir : IR) : Except String Bytecode := do
  let constants := ir.functions.foldl (fun acc e => collectConstants e.2.1 acc)
    (collectConstants ir.instructions [])
  let names := ir.functions.foldl (fun acc e => collectNames e.2.1 acc)
    (collectNames ir.instructions [])
  let (lp, mainCode) ← generateCode constants names ir.instructions
  let init : Bytecode :=
    { code := mainCode, constants := constants, names := names,
      functions := [], labelPositions := lp }
  ir.functions.foldlM
    (fun bc e => do
      let (lpf, codef) ← generateCode constants names e.2.1
      .ok { bc with
              functions := assocSet e.1 (codef, e.2.2) bc.functions,
              labelPositions := lpf.foldl (fun m p => assocSet p.1 p.2 m) bc.labelPositions })
    init

/-- The whole compiler front half under verification: analyzer then code
generator, each from a fresh state (`SemanticAnalyzer()` / `CodeGenerator()`
are constructed anew per run in compiler.py). -/
def compileProgram (prog : List Stmt) : Except String Bytecode :=
  generate (analyze prog)

/-! ## Virtual machine (vm.py: `VM`, `FunctionObject`) -/

/-- Runtime errors surfaced by `execute` (uncaught Python exceptions):
popping an empty stack or indexing past an array is the host `IndexError`,
the rest are the `Exception`s the VM raises itself, plus `outOfFuel`, the
artefact of the fuel-indexed runner (the Python loop is unbounded). -/
inductive VMErr : Type
  | stackUnderflow
  | indexError
  | typeError
  | divisionByZero
  | undefinedVariable (name : String)
  | undefinedFunction (name : String)
  | unknownOpcode (n : Nat)
  | outOfFuel
  deriving DecidableEq

/-- A callable function (`FunctionObject`): name, compiled body, parameter
names.  (The Python object also stores a reference to the shared `Bytecode`;
the VM state below carries that same bytecode, so the field is dropped.) -/
structure FunctionObject : Type where
  name : String
  code : List Nat
  params : List String

/-- The VM state (`VM.__init__`): operand stack (head = top), variable
environment, function registry, program counter, current code array, halted
flag, and return-value slot (Python initializes it to `None`, which is the
runtime value `Value.none`).  `output` records each executed print's
argument list; `defLog` is ghost instrumentation recording the name operand
of every executed DEF_FUNCTION instruction — both are write-only and read
by no instruction.  (`loop_stack` in the source is initialized but never
touched; it is omitted.) -/
structure VMState : Type where
  bytecode : Bytecode
  stack : List Value
  -- the variable environment `self.variables` (the name `variables` is a
  -- reserved token in Lean)
  vars : List (String × Value)
  functions : List (String × FunctionObject)
  pc : Nat
  code : List Nat
  halted : Bool
  return_value : Value
  output : List (List Value)
  defLog : List String

/-- Read the `k`-th slot after the current opcode (`self.code[self.pc]`
after the increments); past the end the Python read raises `IndexError`. -/
def operand (s : VMState) (k : Nat) : Except VMErr Nat :=
  match s.code[s.pc + k]? with
  | some n => .ok n
  | Option.none => .error .indexError

/-- Pop `n` values (`for _ in range(n): args.insert(0, pop())`): the list
comes back in original push order, with the remaining stack. -/
def popArgs (n : Nat) (stack : List Value) : Except VMErr (List Value × List Value) :=
  if n ≤ stack.length then .ok ((stack.take n).reverse, stack.drop n)
  else .error .stackUnderflow

/-- Python `+`: int-instances add to an int, any other numeric mix to a
float; strings and lists concatenate. -/
def pyAdd (l r : Value) : Except VMErr Value :=
  match l, r with
  | .str a, .str b => .ok (.str (a ++ b))
  | .list xs, .list ys => .ok (.list (xs ++ ys))
  | _, _ =>
    if isIntInst l && isIntInst r then .ok (.int (toIntInst l + toIntInst r))
    else
      match toRatQ l, toRatQ r with
      | some a, some b => .ok (.float (a + b))
      | _, _ => .error .typeError

/-- Python `-` (numeric only on the paths this VM can reach). -/
def pySub (l r : Value) : Except VMErr Value :=
  if isIntInst l && isIntInst r then .ok (.int (toIntInst l - toIntInst r))
  else
    match toRatQ l, toRatQ r with
    | some a, some b => .ok (.float (a - b))
    | _, _ => .error .typeError

/-- Python `*` (numeric; sequence repetition is not modelled — no claim
touches it and no compiled scenario produces it). -/
def pyMul (l r : Value) : Except VMErr Value :=
  if isIntInst l && isIntInst r then .ok (.int (toIntInst l * toIntInst r))
  else
    match toRatQ l, toRatQ r with
    | some a, some b => .ok (.float (a * b))
    | _, _ => .error .typeError

/-- The DIV opcode body (vm.py lines 78-84), in source order: pop right,
pop left, raise on `right == 0`, otherwise
`left // right if isinstance(left, int) and isinstance(right, int) else
left / right` — floored quotient for int-instances, true ratio otherwise. -/
def pyDiv (l r : Value) : Except VMErr Value :=
  if pyEq r (.int 0) then .error .divisionByZero
  else if isIntInst l && isIntInst r then .ok (.int (Int.fdiv (toIntInst l) (toIntInst r)))
  else
    match toRatQ l, toRatQ r with
    | some a, some b => .ok (.float (a / b))
    | _, _ => .error .typeError

/-- Python `%` (sign of the divisor; `% 0` raises `ZeroDivisionError`,
surfaced like the VM's own division-by-zero error). -/
def pyMod (l r : Value) : Except VMErr Value :=
  if pyEq r (.int 0) then .error .divisionByZero
  else if isIntInst l && isIntInst r then .ok (.int (Int.fmod (toIntInst l) (toIntInst r)))
  else
    match toRatQ l, toRatQ r with
    | some a, some b => .ok (.float (a - b * (mkRat (Int.floor (a / b)) 1)))
    | _, _ => .error .typeError

/-- Python ordering comparison: numeric kinds by numeric value, strings
lexicographically, anything else a `TypeError`. -/
def pyOrd (l r : Value) : Except VMErr Ordering :=
  match toRatQ l, toRatQ r with
  | some a, some b => .ok (if a < b then .lt else if a = b then .eq else .gt)
  | _, _ =>
    match l, r with
    | .str a, .str b => .ok (if a < b then .lt else if a = b then .eq else .gt)
    | _, _ => .error .typeError

/-- Python unary `-`. -/
def pyNeg (v : Value) : Except VMErr Value :=
  if isIntInst v then .ok (.int (-(toIntInst v)))
  else
    match v with
    | .float q => .ok (.float (-q))
    | _ => .error .typeError

/-- Python unary `+` (identity on ints and floats, int-conversion on
bools). -/
def pyPos (v : Value) : Except VMErr Value :=
  match v with
  | .int n => .ok (.int n)
  | .float q => .ok (.float q)
  | .bool b => .ok (.int (toIntInst (.bool b)))
  | _ => .error .typeError

/-- Bind parameters over a copy of the caller's environment
(`FunctionObject.call`): `vm.vars[param] = args[idx] if idx < len(args)
else None` — missing trailing arguments silently bind to `None`. -/
def bindParams (vars : List (String × Value)) (params : List String)
    (args : List Value) : List (String × Value) :=
  (params.foldl (fun acc p => (assocSet p (args.getD acc.2 Value.none) acc.1, acc.2 + 1))
    (vars, 0)).1

/-- The state a callee starts in (`FunctionObject.call` before its loop):
program counter 0, the function's own code, cleared halted flag and
return slot, a parameter-bound copy of the caller's environment — and,
crucially, the caller's operand stack, function registry and output
carried over unchanged. -/
def calleeEntry (f : FunctionObject) (args : List Value) (vm : VMState) : VMState :=
  { vm with pc := 0, code := f.code, halted := false, return_value := Value.none,
            vars := bindParams vm.vars f.params args }

/-- Embeds `FunctionObject.call`, parameterized by the runner used for the callee's
execution loop: save the five fields, run the callee from `calleeEntry`,
restore the five fields, hand back the callee's return value.  (The final
`result if result is not None else None` of the source is the identity.) -/
def FunctionObject.call (recRun : VMState → Except VMErr VMState) (f : FunctionObject)
    (args : List Value) (vm : VMState) : Except VMErr (Value × VMState) :=
  match recRun (calleeEntry f args vm) with
  | .ok s2 =>
    .ok (s2.return_value,
      { s2 with pc := vm.pc, code := vm.code, halted := vm.halted,
                return_value := vm.return_value, vars := vm.vars })
  | .error e => .error e

/-- Embeds `VM._execute_instruction`, parameterized by the runner a CALL_FUNCTION
uses for its callee.  Opcode numbers are the `OPCODES` table; each branch
mirrors the corresponding `elif` of the source, including the order of
operand reads, pops, and error raises. -/
def execInstrWith (recRun : VMState → Except VMErr VMState) (s : VMState) :
    Except VMErr VMState :=
  match s.code[s.pc]? with
  | Option.none => .error .indexError
  | some opcode =>
  match opcode with
  | 1 =>  -- LOAD_CONST
    match operand s 1 with
    | .error e => .error e
    | .ok idx =>
      match s.bytecode.constants[idx]? with
      | some v => .ok { s with stack := v :: s.stack, pc := s.pc + 2 }
      | Option.none => .error .indexError
  | 2 =>  -- LOAD
    match operand s 1 with
    | .error e => .error e
    | .ok idx =>
      match s.bytecode.names[idx]? with
      | Option.none => .error .indexError
      | some name =>
        match lookupA s.vars name with
        | some v => .ok { s with stack := v :: s.stack, pc := s.pc + 2 }
        | Option.none => .error (.undefinedVariable name)
  | 3 =>  -- STORE
    match operand s 1 with
    | .error e => .error e
    | .ok idx =>
      match s.bytecode.names[idx]? with
      | Option.none => .error .indexError
      | some name =>
        match s.stack with
        | [] => .error .stackUnderflow
        | v :: rest =>
          .ok { s with stack := rest, vars := assocSet name v s.vars,
                       pc := s.pc + 2 }
  | 4 =>  -- POP
    match s.stack with
    | [] => .error .stackUnderflow
    | _ :: rest => .ok { s with stack := rest, pc := s.pc + 1 }
  | 5 =>  -- ADD (pops right, then left)
    match s.stack with
    | r :: l :: rest =>
      match pyAdd l r with
      | .ok v => .ok { s with stack := v :: rest, pc := s.pc + 1 }
      | .error e => .error e
    | _ => .error .stackUnderflow
  | 6 =>  -- SUB
    match s.stack with
    | r :: l :: rest =>
      match pySub l r with
      | .ok v => .ok { s with stack := v :: rest, pc := s.pc + 1 }
      | .error e => .error e
    | _ => .error .stackUnderflow
  | 7 =>  -- MUL
    match s.stack with
    | r :: l :: rest =>
      match pyMul l r with
      | .ok v => .ok { s with stack := v :: rest, pc := s.pc + 1 }
      | .error e => .error e
    | _ => .error .stackUnderflow
  | 8 =>  -- DIV
    match s.stack with
    | r :: l :: rest =>
      match pyDiv l r with
      | .ok v => .ok { s with stack := v :: rest, pc := s.pc + 1 }
      | .error e => .error e
    | _ => .error .stackUnderflow
  | 9 =>  -- MOD
    match s.stack with
    | r :: l :: rest =>
      match pyMod l r with
      | .ok v => .ok { s with stack := v :: rest, pc := s.pc + 1 }
      | .error e => .error e
    | _ => .error .stackUnderflow
  | 10 =>  -- NEGATE
    match s.stack with
    | v :: rest =>
      match pyNeg v with
      | .ok w => .ok { s with stack := w :: rest, pc := s.pc + 1 }
      | .error e => .error e
    | [] => .error .stackUnderflow
  | 11 =>  -- POS
    match s.stack with
    | v :: rest =>
      match pyPos v with
      | .ok w => .ok { s with stack := w :: rest, pc := s.pc + 1 }
      | .error e => .error e
    | [] => .error .stackUnderflow
  | 12 =>  -- NOT
    match s.stack with
    | v :: rest => .ok { s with stack := .bool (!truthy v) :: rest, pc := s.pc + 1 }
    | [] => .error .stackUnderflow
  | 13 =>  -- EQ
    match s.stack with
    | r :: l :: rest => .ok { s with stack := .bool (pyEq l r) :: rest, pc := s.pc + 1 }
    | _ => .error .stackUnderflow
  | 14 =>  -- NEQ
    match s.stack with
    | r :: l :: rest => .ok { s with stack := .bool (!pyEq l r) :: rest, pc := s.pc + 1 }
    | _ => .error .stackUnderflow
  | 15 =>  -- LT
    match s.stack with
    | r :: l :: rest =>
      match pyOrd l r with
      | .ok o => .ok { s with stack := .bool (o = .lt) :: rest, pc := s.pc + 1 }
      | .error e => .error e
    | _ => .error .stackUnderflow
  | 16 =>  -- GT
    match s.stack with
    | r :: l :: rest =>
      match pyOrd l r with
      | .ok o => .ok { s with stack := .bool (o = .gt) :: rest, pc := s.pc + 1 }
      | .error e => .error e
    | _ => .error .stackUnderflow
  | 17 =>  -- LE
    match s.stack with
    | r :: l :: rest =>
      match pyOrd l r with
      | .ok o => .ok { s with stack := .bool (o ≠ .gt) :: rest, pc := s.pc + 1 }
      | .error e => .error e
    | _ => .error .stackUnderflow
  | 18 =>  -- GE
    match s.stack with
    | r :: l :: rest =>
      match pyOrd l r with
      | .ok o => .ok { s with stack := .bool (o ≠ .lt) :: rest, pc := s.pc + 1 }
      | .error e => .error e
    | _ => .error .stackUnderflow
  | 19 =>  -- AND: pushes the Python value of `left and right`
    match s.stack with
    | r :: l :: rest =>
      .ok { s with stack := (if truthy l then r else l) :: rest, pc := s.pc + 1 }
    | _ => .error .stackUnderflow
  | 20 =>  -- OR: pushes the Python value of `left or right`
    match s.stack with
    | r :: l :: rest =>
      .ok { s with stack := (if truthy l then l else r) :: rest, pc := s.pc + 1 }
    | _ => .error .stackUnderflow
  | 21 =>  -- JUMP
    match operand s 1 with
    | .error e => .error e
    | .ok target => .ok { s with pc := target }
  | 22 =>  -- JUMP_IF_FALSE
    match operand s 1 with
    | .error e => .error e
    | .ok target =>
      match s.stack with
      | [] => .error .stackUnderflow
      | c :: rest =>
        if truthy c then .ok { s with stack := rest, pc := s.pc + 2 }
        else .ok { s with stack := rest, pc := target }
  | 24 =>  -- PRINT
    match operand s 1 with
    | .error e => .error e
    | .ok n =>
      match popArgs n s.stack with
      | .error e => .error e
      | .ok (args, rest) =>
        .ok { s with stack := rest, output := s.output ++ [args], pc := s.pc + 2 }
  | 25 =>  -- CALL_FUNCTION
    match operand s 1 with
    | .error e => .error e
    | .ok idx =>
      match operand s 2 with
      | .error e => .error e
      | .ok numArgs =>
        match s.bytecode.names[idx]? with
        | Option.none => .error .indexError
        | some funcName =>
          match lookupA s.functions funcName with
          | Option.none => .error (.undefinedFunction funcName)
          | some fobj =>
            match popArgs numArgs s.stack with
            | .error e => .error e
            | .ok (args, rest) =>
              match FunctionObject.call recRun fobj args
                      { s with stack := rest, pc := s.pc + 3 } with
              | .error e => .error e
              | .ok (result, s') => .ok { s' with stack := result :: s'.stack }
  | 26 =>  -- RETURN_VALUE: top of stack if any, else None
    match s.stack with
    | v :: rest => .ok { s with stack := rest, return_value := v, halted := true,
                                pc := s.pc + 1 }
    | [] => .ok { s with return_value := Value.none, halted := true, pc := s.pc + 1 }
  | 27 =>  -- NOP
    .ok { s with pc := s.pc + 1 }
  | 28 =>  -- BUILD_LIST
    match operand s 1 with
    | .error e => .error e
    | .ok n =>
      match popArgs n s.stack with
      | .error e => .error e
      | .ok (items, rest) =>
        .ok { s with stack := .list items :: rest, pc := s.pc + 2 }
  | 29 =>  -- SETUP_LOOP: no-op
    .ok { s with pc := s.pc + 1 }
  | 30 =>  -- FOR_ITER: reads both operands, resolves the
    -- loop-variable name, then does nothing ("For now, just a simple
    -- implementation"): no binding, no jump, no stack change.
    match operand s 1 with
    | .error e => .error e
    | .ok _target =>
      match operand s 2 with
      | .error e => .error e
      | .ok varIdx =>
        match s.bytecode.names[varIdx]? with
        | Option.none => .error .indexError
        | some _varName => .ok { s with pc := s.pc + 3 }
  | 31 =>  -- DEF_FUNCTION
    match operand s 1 with
    | .error e => .error e
    | .ok idx =>
      match s.bytecode.names[idx]? with
      | Option.none => .error .indexError
      | some funcName =>
        match lookupA s.bytecode.functions funcName with
        | some entry =>
          .ok { s with
                  functions := assocSet funcName ⟨funcName, entry.1, entry.2⟩ s.functions,
                  defLog := s.defLog ++ [funcName], pc := s.pc + 2 }
        | Option.none => .ok { s with defLog := s.defLog ++ [funcName], pc := s.pc + 2 }
  | n => .error (.unknownOpcode n)

/-- The execution loop (`VM.execute` / the inner loop of
`FunctionObject.call`): `while pc < len(code) and not halted: step`,
indexed by fuel.  Defined through `Nat.rec` so that concrete runs reduce
definitionally. -/
def run (fuel : Nat) : VMState → Except VMErr VMState :=
  Nat.rec (motive := fun _ => VMState → Except VMErr VMState)
    (fun _ => .error .outOfFuel)
    (fun _ ih s =>
      if s.pc < s.code.length ∧ s.halted = false then
        match execInstrWith ih s with
        | .ok s' => ih s'
        | .error e => .error e
      else .ok s)
    fuel

/-- One instruction step with `fuel` available for nested calls. -/
def execInstr (fuel : Nat) : VMState → Except VMErr VMState :=
  execInstrWith (run fuel)

theorem run_zero (s : VMState) : run 0 s = .error .outOfFuel := rfl

theorem run_succ (fuel : Nat) (s : VMState) :
    run (fuel + 1) s =
      (if s.pc < s.code.length ∧ s.halted = false then
        match execInstrWith (run fuel) s with
        | .ok s' => run fuel s'
        | .error e => .error e
      else .ok s) := rfl

/-- Embeds `VM.__init__` plus the start of `execute`: fresh state on a bytecode. -/
def initVM (bc : Bytecode) : VMState :=
  { bytecode := bc, stack := [], vars := [], functions := [], pc := 0,
    code := bc.code, halted := false, return_value := Value.none, output := [],
    defLog := [] }

/-- Embeds `VM.execute`: run the main code from a fresh state; the result is the
final return-value slot. -/
def executeVM (fuel : Nat) (bc : Bytecode) : Except VMErr Value :=
  (run fuel (initVM bc)).map (fun s => s.return_value)

/-! ## Static stack effect of the lowering (for the stack-balance claim)

`stackEff` maps each IR instruction to the number of values its VM handler
pushes minus the number it pops (reading the handlers in vm.py):
loads push one; STORE/POP/RETURN_VALUE/JUMP_IF_FALSE pop one; every binary
operator pops two and pushes one; unary operators, jumps, NOP, SETUP_LOOP,
DEF_FUNCTION are neutral; FOR_ITER is neutral because its handler touches
nothing; PRINT pops its argument count; CALL_FUNCTION pops its argument
count and pushes the result; BUILD_LIST pops its element count and pushes
the list; LABEL emits nothing. -/
def stackEff (i : IRInstruction) : Int :=
  if i.op = "LOAD_CONST" ∨ i.op = "LOAD" then 1
  else if i.op = "STORE" ∨ i.op = "POP" ∨ i.op = "RETURN_VALUE" ∨ i.op = "JUMP_IF_FALSE" then -1
  else if i.op = "ADD" ∨ i.op = "SUB" ∨ i.op = "MUL" ∨ i.op = "DIV" ∨ i.op = "MOD"
       ∨ i.op = "EQ" ∨ i.op = "NEQ" ∨ i.op = "LT" ∨ i.op = "GT" ∨ i.op = "LE"
       ∨ i.op = "GE" ∨ i.op = "AND" ∨ i.op = "OR" then -1
  else if i.op = "PRINT" then
    match i.args with
    | .nat n :: _ => -(n : Int)
    | _ => -1
  else if i.op = "CALL_FUNCTION" then
    match i.args with
    | .str _ :: .nat n :: _ => 1 - (n : Int)
    | _ => 1
  else if i.op = "BUILD_LIST" then
    match i.args with
    | .nat n :: _ => 1 - (n : Int)
    | _ => 1
  else 0

/-- Net static stack effect of an instruction sequence. -/
def netEff (l : List IRInstruction) : Int :=
  (l.map stackEff).sum

/-- The binary operators `visit_Binary` knows (`op_map`); the parser
produces no others — an unknown operator would be rejected by the code
generator as an unknown IR operation anyway. -/
def knownBinOp (op : String) : Bool :=
  op = "+" || op = "-" || op = "*" || op = "/" || op = "%" || op = "==" || op = "!="
    || op = "<" || op = ">" || op = "<=" || op = ">=" || op = "and" || op = "or"

/-- The unary operators `visit_Unary` knows (`op_map`). -/
def knownUnOp (op : String) : Bool :=
  op = "-" || op = "+" || op = "not"

mutual
/-- Every operator in the expression is from the analyzer's operator
tables (true of everything the parser builds). -/
def wfExpr : Expr → Bool
  | .lit _ => true
  | .var _ => true
  | .binary op l r => knownBinOp op && wfExpr l && wfExpr r
  | .unary op e => knownUnOp op && wfExpr e
  | .call _ args => wfExprList args
  | .listLit items => wfExprList items

def wfExprList : List Expr → Bool
  | [] => true
  | e :: es => wfExpr e && wfExprList es

/-- Every binary operator in the statement is from `op_map`. -/
def wfStmt : Stmt → Bool
  | .exprStmt e => wfExpr e
  | .assign _ e => wfExpr e
  | .ifS c t (some e) => wfExpr c && wfStmt t && wfStmt e
  | .ifS c t Option.none => wfExpr c && wfStmt t
  | .whileS c b => wfExpr c && wfStmt b
  | .forS _ it b => wfExpr it && wfStmt b
  | .funcDef _ _ b => wfStmt b
  | .ret (some e) => wfExpr e
  | .ret Option.none => true
  | .pass => true
  | .printS args => wfExprList args
  | .block ss => wfStmtList ss

def wfStmtList : List Stmt → Bool
  | [] => true
  | s :: ss => wfStmt s && wfStmtList ss
end

mutual
/-- Number of for-loops a statement contributes to its own (outer) emitted
sequence: a for-loop counts itself plus its body; a function definition
contributes none (its body is lowered into a separate sequence). -/
def forCount : Stmt → Nat
  | .ifS _ t (some e) => forCount t + forCount e
  | .ifS _ t Option.none => forCount t
  | .whileS _ b => forCount b
  | .forS _ _ b => 1 + forCount b
  | .block ss => forCountList ss
  | _ => 0

def forCountList : List Stmt → Nat
  | [] => 0
  | s :: ss => forCount s + forCountList ss
end

theorem netEff_append (a b : List IRInstruction) : netEff (a ++ b) = netEff a + netEff b := by
  simp [netEff]

theorem stackEff_binOp (op : String) (h : knownBinOp op = true) :
    stackEff ⟨binOpIR op, []⟩ = -1 := by
  simp only [knownBinOp, Bool.or_eq_true, decide_eq_true_eq] at h
  rcases h with ((((((((((((h | h) | h) | h) | h) | h) | h) | h) | h) | h) | h) | h) | h) <;>
    subst h <;> rfl

theorem stackEff_unOp (op : String) (h : knownUnOp op = true) :
    stackEff ⟨unOpIR op, []⟩ = 0 := by
  simp only [knownUnOp, Bool.or_eq_true, decide_eq_true_eq] at h
  rcases h with (h | h) | h <;> subst h <;> rfl

theorem netEff_single (i : IRInstruction) : netEff [i] = stackEff i := by
  simp [netEff]

theorem netEff_nil : netEff [] = 0 := rfl

theorem netEff_cons (i : IRInstruction) (l : List IRInstruction) :
    netEff (i :: l) = stackEff i + netEff l := by
  simp [netEff]

mutual
/-- Every expression's lowering has net static stack effect exactly +1. -/
theorem netEff_visitExpr : (e : Expr) → (st : AnState) → wfExpr e = true →
    netEff (visitExpr e st).1 = 1
  | .lit v, st, _ => by simp [visitExpr, netEff, stackEff]
  | .var name, st, _ => by simp [visitExpr, netEff, stackEff]
  | .binary op l r, st, h => by
    simp only [wfExpr, Bool.and_eq_true] at h
    have ihl : ∀ st', netEff (visitExpr l st').1 = 1 :=
      fun st' => netEff_visitExpr l st' h.1.2
    have ihr : ∀ st', netEff (visitExpr r st').1 = 1 :=
      fun st' => netEff_visitExpr r st' h.2
    simp [visitExpr, netEff_append, netEff_cons, netEff_single, netEff_nil, ihl, ihr, stackEff_binOp op h.1.1]
  | .unary op e, st, h => by
    simp only [wfExpr, Bool.and_eq_true] at h
    have ih : ∀ st', netEff (visitExpr e st').1 = 1 :=
      fun st' => netEff_visitExpr e st' h.2
    simp [visitExpr, netEff_append, netEff_cons, netEff_single, netEff_nil, ih, stackEff_unOp op h.1]
  | .call fname args, st, h => by
    simp only [wfExpr] at h
    have ih : ∀ st', netEff (visitExprList args st').1 = args.length :=
      fun st' => netEff_visitExprList args st' h
    simp [visitExpr, netEff_append, netEff_cons, netEff_single, netEff_nil, ih, stackEff]
  | .listLit items, st, h => by
    simp only [wfExpr] at h
    have ih : ∀ st', netEff (visitExprList items st').1 = items.length :=
      fun st' => netEff_visitExprList items st' h
    simp [visitExpr, netEff_append, netEff_cons, netEff_single, netEff_nil, ih, stackEff]

/-- A list of expressions lowers with net effect equal to its length (one
value left per expression). -/
theorem netEff_visitExprList : (es : List Expr) → (st : AnState) → wfExprList es = true →
    netEff (visitExprList es st).1 = es.length
  | [], st, _ => by simp [visitExprList, netEff]
  | e :: es, st, h => by
    simp only [wfExprList, Bool.and_eq_true] at h
    have ih1 : ∀ st', netEff (visitExpr e st').1 = 1 :=
      fun st' => netEff_visitExpr e st' h.1
    have ih2 : ∀ st', netEff (visitExprList es st').1 = es.length :=
      fun st' => netEff_visitExprList es st' h.2
    simp [visitExprList, netEff_append, netEff_cons, netEff_nil, ih1, ih2]
    omega

/-- A statement's lowering has net static stack effect equal to the number
of for-loops it contributes to its own sequence (the iterable each for-loop
pushes at setup is never popped by any emitted instruction). -/
theorem netEff_visitStmt : (s : Stmt) → (st : AnState) → wfStmt s = true →
    netEff (visitStmt s st).1 = forCount s
  | .exprStmt e, st, h => by
    have ih : ∀ st', netEff (visitExpr e st').1 = 1 :=
      fun st' => netEff_visitExpr e st' h
    simp [visitStmt, netEff_append, netEff_cons, netEff_single, netEff_nil, ih, stackEff, forCount]
  | .assign name e, st, h => by
    have ih : ∀ st', netEff (visitExpr e st').1 = 1 :=
      fun st' => netEff_visitExpr e st' h
    simp [visitStmt, netEff_append, netEff_cons, netEff_single, netEff_nil, ih, stackEff, forCount]
  | .ifS c t (some e), st, h => by
    simp only [wfStmt, Bool.and_eq_true] at h
    have ihc : ∀ st', netEff (visitExpr c st').1 = 1 :=
      fun st' => netEff_visitExpr c st' h.1.1
    have iht : ∀ st', netEff (visitStmt t st').1 = forCount t :=
      fun st' => netEff_visitStmt t st' h.1.2
    have ihe : ∀ st', netEff (visitStmt e st').1 = forCount e :=
      fun st' => netEff_visitStmt e st' h.2
    simp [visitStmt, netEff_append, netEff_cons, netEff_single, netEff_nil, ihc, iht, ihe, stackEff, forCount]
  | .ifS c t Option.none, st, h => by
    simp only [wfStmt, Bool.and_eq_true] at h
    have ihc : ∀ st', netEff (visitExpr c st').1 = 1 :=
      fun st' => netEff_visitExpr c st' h.1
    have iht : ∀ st', netEff (visitStmt t st').1 = forCount t :=
      fun st' => netEff_visitStmt t st' h.2
    simp [visitStmt, netEff_append, netEff_cons, netEff_single, netEff_nil, netEff_nil, ihc, iht, stackEff, forCount]
  | .whileS c b, st, h => by
    simp only [wfStmt, Bool.and_eq_true] at h
    have ihc : ∀ st', netEff (visitExpr c st').1 = 1 :=
      fun st' => netEff_visitExpr c st' h.1
    have ihb : ∀ st', netEff (visitStmt b st').1 = forCount b :=
      fun st' => netEff_visitStmt b st' h.2
    simp [visitStmt, netEff_append, netEff_cons, netEff_single, netEff_nil, ihc, ihb, stackEff, forCount]
  | .forS v it b, st, h => by
    simp only [wfStmt, Bool.and_eq_true] at h
    have ihit : ∀ st', netEff (visitExpr it st').1 = 1 :=
      fun st' => netEff_visitExpr it st' h.1
    have ihb : ∀ st', netEff (visitStmt b st').1 = forCount b :=
      fun st' => netEff_visitStmt b st' h.2
    simp [visitStmt, netEff_append, netEff_cons, netEff_single, netEff_nil, ihit, ihb, stackEff, forCount]
  | .funcDef name params b, st, _ => by
    simp [visitStmt, netEff, stackEff, forCount]
  | .ret (some e), st, h => by
    have ih : ∀ st', netEff (visitExpr e st').1 = 1 :=
      fun st' => netEff_visitExpr e st' h
    simp [visitStmt, netEff_append, netEff_cons, netEff_single, netEff_nil, ih, stackEff, forCount]
  | .ret Option.none, st, _ => by simp [visitStmt, netEff, stackEff, forCount]
  | .pass, st, _ => by simp [visitStmt, netEff, stackEff, forCount]
  | .printS args, st, h => by
    have ih : ∀ st', netEff (visitExprList args st').1 = args.length :=
      fun st' => netEff_visitExprList args st' h
    simp [visitStmt, netEff_append, netEff_cons, netEff_single, netEff_nil, ih, stackEff, forCount]
  | .block ss, st, h => by
    have ih : ∀ st', netEff (visitStmtList ss st').1 = forCountList ss :=
      fun st' => netEff_visitStmtList ss st' h
    simp [visitStmt, forCount, ih]

/-- Net effect of a statement list: the sum of the for-loop counts. -/
theorem netEff_visitStmtList : (ss : List Stmt) → (st : AnState) → wfStmtList ss = true →
    netEff (visitStmtList ss st).1 = forCountList ss
  | [], st, _ => by simp [visitStmtList, netEff, forCountList]
  | s :: ss, st, h => by
    simp only [wfStmtList, Bool.and_eq_true] at h
    have ih1 : ∀ st', netEff (visitStmt s st').1 = forCount s :=
      fun st' => netEff_visitStmt s st' h.1
    have ih2 : ∀ st', netEff (visitStmtList ss st').1 = forCountList ss :=
      fun st' => netEff_visitStmtList ss st' h.2
    simp [visitStmtList, netEff_append, netEff_cons, netEff_nil, ih1, ih2, forCountList]
end

/-! ## Helper lemmas about Python equality on values -/

theorem pyEq_int (a b : Int) : pyEq (.int a) (.int b) = decide (a = b) := by
  simp [pyEq, toRatQ, Rat.mkRat_one]

theorem pyEq_zero_of_toRatQ (v : Value) (q : Rat) (h : toRatQ v = some q) :
    pyEq v (.int 0) = decide (q = 0) := by
  cases v <;> simp_all [pyEq, toRatQ, Rat.mkRat_one]

/-- A bare VM state for concrete executions: the given code, name pool and
operand stack, everything else as `VM.__init__` leaves it. -/
def testState (code : List Nat) (names : List String) (stack : List Value) : VMState :=
  { bytecode := { code := code, constants := [], names := names, functions := [],
                  labelPositions := [] },
    stack := stack, vars := [], functions := [], pc := 0, code := code,
    halted := false, return_value := Value.none, output := [], defLog := [] }

/-! ## Claim C1 — label resolution vs. emission -/

/-- The IR sequence of the C1 failing input: a function definition, then a
label, then the instruction the label should resolve to, then a jump to the
label. -/
def c1IR : List IRInstruction :=
  [⟨"DEF_FUNCTION", [.str "f", .strList []]⟩, ⟨"LABEL", [.str "L9"]⟩,
   ⟨"NOP", []⟩, ⟨"JUMP", [.str "L9"]⟩]

/-- C1: REFUTED — the sizing pass and the emission pass disagree on
DEF_FUNCTION.  The sizing pass charges it 1 + OPCODE_ARGS["DEF_FUNCTION"]
= 3 slots, but `_emit_instruction` writes only 2 (opcode plus name index:
the params operand is commented out).  On the sequence
[DEF_FUNCTION f; LABEL L9; NOP; JUMP L9] the label resolves to offset 3,
while the NOP that follows the label is emitted at index 2; the emitted
JUMP operand 3 lands on the JUMP's own opcode, not on the NOP. -/
theorem C1_def_function_sizing_bug :
    sizeLabelPositions c1IR 0 [] = [("L9", 3)] ∧
    (emitInstruction [] ["f"] [("L9", 3)] ⟨"DEF_FUNCTION", [.str "f", .strList []]⟩).map
      List.length = .ok 2 ∧
    generateCode [] ["f"] c1IR = .ok ([("L9", 3)], [31, 0, 27, 21, 3]) ∧
    [31, 0, 27, 21, 3][2]? = some 27 ∧
    (3 : Nat) ≠ 2 :=
  ⟨rfl, rfl, rfl, rfl, by decide⟩

/-! ## Claim C2 — what a returning call restores -/

/-- Bytecode for the C2 counterexample: main defines `f` and calls it; the
body of `f` consists of a single DEF_FUNCTION for `g`. -/
def c2Bc : Bytecode :=
  { code := [31, 0, 25, 0, 0], constants := [], names := ["f", "g"],
    functions := [("f", ([31, 1], [])), ("g", ([], []))], labelPositions := [] }

/-- C2 as stated is FALSE: `FunctionObject.call` saves and restores only
pc, code, halted, return slot and variables — not the function registry.
After `f()` returns, the function `g` that the callee defined is still
registered and visible to the caller. -/
theorem C2_counterexample :
    (run 10 (initVM c2Bc)).map (fun s => s.functions.map Prod.fst) = .ok ["f", "g"] ∧
    (run 10 (initVM c2Bc)).map (fun s => (lookupA s.functions "g").isSome) = .ok true :=
  ⟨rfl, rfl⟩

/-- C2 amended: on a normal return the caller's program counter, code
pointer, halted flag, return-value slot and variable environment are
restored verbatim (so no callee variable mutation is visible) — but
function definitions the callee executed persist in the shared function
registry, and the operand stack is the callee's final stack, not a
restored copy. -/
theorem C2_call_restores_caller_state (recRun : VMState → Except VMErr VMState)
    (f : FunctionObject) (args : List Value) (vm : VMState) (v : Value) (s' : VMState)
    (h : FunctionObject.call recRun f args vm = .ok (v, s')) :
    s'.pc = vm.pc ∧ s'.code = vm.code ∧ s'.halted = vm.halted ∧
    s'.return_value = vm.return_value ∧ s'.vars = vm.vars := by
  unfold FunctionObject.call at h
  cases hr : recRun (calleeEntry f args vm) with
  | ok s2 =>
    rw [hr] at h
    injection h with h1
    obtain ⟨hv, hs'⟩ := Prod.mk.inj h1
    subst hs'
    exact ⟨rfl, rfl, rfl, rfl, rfl⟩
  | error e => rw [hr] at h; exact absurd h (by simp)

theorem C2_call_restores_caller_state_witness :
    (testState [] [] []).pc = (testState [] [] [.int 9]).pc ∧
    (testState [] [] []).code = (testState [] [] [.int 9]).code ∧
    (testState [] [] []).halted = (testState [] [] [.int 9]).halted ∧
    (testState [] [] []).return_value = (testState [] [] [.int 9]).return_value ∧
    (testState [] [] []).vars = (testState [] [] [.int 9]).vars :=
  C2_call_restores_caller_state (run 5) ⟨"f", [26], []⟩ [] (testState [] [] [.int 9])
    (.int 9) (testState [] [] []) rfl

/-! ## Claim C3 — the implicit return -/

/-- The C3 failing program: `def f() { pass }  x = 1 + f();`. -/
def c3Prog : List Stmt :=
  [.funcDef "f" [] (.block [.pass]),
   .assign "x" (.binary "+" (.lit (.int 1)) (.call "f" []))]

/-- Compile and run a program; `Option.none` when compilation fails. -/
def compileAndRun (fuel : Nat) (prog : List Stmt) : Option (Except VMErr VMState) :=
  match compileProgram prog with
  | .ok bc => some (run fuel (initVM bc))
  | .error _ => Option.none

/-- C3: REFUTED by the code — `visit_FuncDef` appends a bare RETURN_VALUE
with no preceding LOAD_CONST None (unlike the lowering of an explicit bare
`return`), and RETURN_VALUE pops whatever is on the shared operand stack.
Calling `f` (body `pass`) while the caller holds the pending operand 1:
the implicit return pops and returns the caller's 1 instead of null, and
the subsequent ADD underflows the stack, so `x = 1 + f();` dies with a
stack-underflow instead of evaluating `1 + null`. -/
theorem C3_implicit_return_steals_operand :
    FunctionObject.call (run 5) ⟨"f", [27, 26], []⟩ [] (testState [] [] [.int 1]) =
      .ok (.int 1, testState [] [] []) ∧
    compileAndRun 20 c3Prog = some (.error .stackUnderflow) :=
  ⟨rfl, rfl⟩

/-! ## Claim C4 — stack balance of the lowering -/

/-- C4 as stated is FALSE for for-statements: the lowering of
`for x in [] { pass }` has net static stack effect +1 (the iterable pushed
at loop setup is popped by no emitted instruction), not 0. -/
theorem C4_counterexample :
    netEff (visitStmt (.forS "x" (.listLit []) .pass) initAnState).1 = 1 ∧
    netEff (visitStmt (.forS "x" (.listLit []) .pass) initAnState).1 ≠ 0 :=
  ⟨rfl, by decide⟩

/-- C4 amended: every expression's lowering pushes exactly one value net;
every statement's lowering is stack-neutral EXCEPT for-statements — a
statement's net effect equals the number of for-loops it contributes to
its own instruction sequence, each of which leaves its iterable behind. -/
theorem C4_stack_balance_amended :
    (∀ (e : Expr) (st : AnState), wfExpr e = true → netEff (visitExpr e st).1 = 1) ∧
    (∀ (s : Stmt) (st : AnState), wfStmt s = true → netEff (visitStmt s st).1 = forCount s) :=
  ⟨netEff_visitExpr, netEff_visitStmt⟩

theorem C4_stack_balance_amended_witness :
    netEff (visitExpr (.binary "+" (.lit (.int 1)) (.lit (.int 2))) initAnState).1 = 1 ∧
    netEff (visitStmt (.assign "x" (.lit (.int 1))) initAnState).1 =
      forCount (.assign "x" (.lit (.int 1))) :=
  ⟨C4_stack_balance_amended.1 _ initAnState rfl,
   C4_stack_balance_amended.2 _ initAnState rfl⟩

/-! ## Claim C5 — FOR_ITER -/

/-- C5: REFUTED by the code — the FOR_ITER handler is a stub.  On a state
holding the iterable [1, 2] (plainly unexhausted, cursor never created) it
neither binds the loop variable nor jumps: it reads its two operands,
advances the program counter past them, and changes nothing else, so a
compiled for-loop re-enters its body forever. -/
theorem C5_for_iter_is_inert :
    execInstr 1 (testState [30, 9, 0] ["x"] [.list [.int 1, .int 2]]) =
      .ok { testState [30, 9, 0] ["x"] [.list [.int 1, .int 2]] with pc := 3 } :=
  rfl

/-! ## Claim C7 — DIV -/

/-- C7: the DIV instruction raises division-by-zero whenever the popped
right operand compares equal to zero (whatever the operand kinds); when
both operands are integers it pushes the floored quotient; when either is
non-integer (numerically) it pushes the exact ratio. -/
theorem C7_div_semantics :
    (∀ (fuel : Nat) (s : VMState) (z v : Value) (rest : List Value),
        s.code[s.pc]? = some 8 → s.stack = z :: v :: rest →
        pyEq z (.int 0) = true →
        execInstr fuel s = .error .divisionByZero) ∧
    (∀ (fuel : Nat) (s : VMState) (a b : Int) (rest : List Value),
        s.code[s.pc]? = some 8 → s.stack = .int b :: .int a :: rest → b ≠ 0 →
        execInstr fuel s =
          .ok { s with stack := .int (Int.fdiv a b) :: rest, pc := s.pc + 1 }) ∧
    (∀ (fuel : Nat) (s : VMState) (l r : Value) (ql qr : Rat) (rest : List Value),
        s.code[s.pc]? = some 8 → s.stack = r :: l :: rest →
        toRatQ l = some ql → toRatQ r = some qr → qr ≠ 0 →
        (isIntInst l && isIntInst r) = false →
        execInstr fuel s =
          .ok { s with stack := .float (ql / qr) :: rest, pc := s.pc + 1 }) := by
  refine ⟨?_, ?_, ?_⟩
  · intro fuel s z v rest hc hs hz
    simp [execInstr, execInstrWith, hc, hs, pyDiv, hz]
  · intro fuel s a b rest hc hs hb
    simp [execInstr, execInstrWith, hc, hs, pyDiv, pyEq_int, hb, isIntInst, toIntInst]
  · intro fuel s l r ql qr rest hc hs hql hqr hz hii
    simp [execInstr, execInstrWith, hc, hs, pyDiv, pyEq_zero_of_toRatQ r qr hqr, hz,
      hii, hql, hqr]

theorem C7_div_semantics_witness :
    execInstr 1 (testState [8] [] [.int 0, .int 5]) = .error .divisionByZero ∧
    execInstr 1 (testState [8] [] [.int 2, .int 7]) =
      .ok { testState [8] [] [.int 2, .int 7] with stack := [.int 3], pc := 1 } ∧
    execInstr 1 (testState [8] [] [.int 2, .float (mkRat 7 1)]) =
      .ok { testState [8] [] [.int 2, .float (mkRat 7 1)] with
              stack := [.float (mkRat 7 1 / mkRat 2 1)], pc := 1 } ∧
    mkRat 7 1 / mkRat 2 1 = mkRat 7 2 := by
  refine ⟨?_, ?_, ?_⟩
  · exact C7_div_semantics.1 1 _ (.int 0) (.int 5) [] rfl rfl rfl
  · have h := C7_div_semantics.2.1 1 (testState [8] [] [.int 2, .int 7]) 7 2 [] rfl rfl
      (by decide)
    exact h
  · refine ⟨?_, by rw [Rat.mkRat_eq_div, Rat.mkRat_eq_div, Rat.mkRat_eq_div]; norm_num⟩
    exact C7_div_semantics.2.2 1 (testState [8] [] [.int 2, .float (mkRat 7 1)])
      (.float (mkRat 7 1)) (.int 2) (mkRat 7 1) (mkRat 2 1) [] rfl rfl rfl rfl
      (by decide) rfl

/-! ## Claim C8 — determinism of compilation -/

/-- C8: compilation is deterministic — two runs of `analyze` + `generate`
on the same AST (each from fresh analyzer/generator state, which is all
`compileProgram` ever uses) produce identical code, pools and function
tables.  The embedded pipeline is a pure function of the AST, mirroring
that the Python pipeline touches no state shared between runs. -/
theorem C8_compile_deterministic (prog : List Stmt) (bc1 bc2 : Bytecode)
    (h1 : compileProgram prog = .ok bc1) (h2 : compileProgram prog = .ok bc2) :
    bc1.code = bc2.code ∧ bc1.constants = bc2.constants ∧ bc1.names = bc2.names ∧
    bc1.functions = bc2.functions := by
  rw [h1] at h2
  injection h2 with h
  subst h
  exact ⟨rfl, rfl, rfl, rfl⟩

/-- The bytecode of `x = 1;` for the determinism witness. -/
def c8Bc : Bytecode :=
  { code := [1, 0, 3, 0], constants := [.int 1], names := ["x"], functions := [],
    labelPositions := [] }

theorem C8_compile_deterministic_witness :
    c8Bc.code = c8Bc.code ∧ c8Bc.constants = c8Bc.constants ∧ c8Bc.names = c8Bc.names ∧
    c8Bc.functions = c8Bc.functions :=
  C8_compile_deterministic [.assign "x" (.lit (.int 1))] c8Bc c8Bc rfl rfl

/-! ## Claim C9 — the call mechanism does not save the operand stack -/

/-- C9: a callee begins execution directly on the caller's operand stack
(`calleeEntry` keeps it), and after a normal return the caller continues on
the callee's final stack — only pc, code, halted flag, return slot and
variables are saved and restored.  Hence a callee instruction that pops
more than the callee pushed consumes the caller's values. -/
theorem C9_call_shares_operand_stack (recRun : VMState → Except VMErr VMState)
    (f : FunctionObject) (args : List Value) (vm : VMState) (v : Value) (s' : VMState)
    (h : FunctionObject.call recRun f args vm = .ok (v, s')) :
    (calleeEntry f args vm).stack = vm.stack ∧
    (recRun (calleeEntry f args vm)).map (fun s2 => s2.stack) = .ok s'.stack ∧
    (recRun (calleeEntry f args vm)).map (fun s2 => s2.return_value) = .ok v ∧
    s'.pc = vm.pc ∧ s'.code = vm.code ∧ s'.halted = vm.halted ∧
    s'.return_value = vm.return_value ∧ s'.vars = vm.vars := by
  unfold FunctionObject.call at h
  cases hr : recRun (calleeEntry f args vm) with
  | ok s2 =>
    rw [hr] at h
    injection h with h1
    obtain ⟨hv, hs'⟩ := Prod.mk.inj h1
    subst hs'
    subst hv
    exact ⟨rfl, rfl, rfl, rfl, rfl, rfl, rfl, rfl⟩
  | error e => rw [hr] at h; exact absurd h (by simp)

theorem C9_call_shares_operand_stack_witness :
    (calleeEntry ⟨"f", [4], []⟩ [] (testState [] [] [.int 1, .int 2])).stack =
      (testState [] [] [.int 1, .int 2]).stack ∧
    (run 5 (calleeEntry ⟨"f", [4], []⟩ [] (testState [] [] [.int 1, .int 2]))).map
      (fun s2 => s2.stack) = .ok [.int 2] ∧
    (run 5 (calleeEntry ⟨"f", [4], []⟩ [] (testState [] [] [.int 1, .int 2]))).map
      (fun s2 => s2.return_value) = .ok Value.none ∧
    (0 : Nat) = (testState [] [] [.int 1, .int 2]).pc ∧
    ([] : List Nat) = (testState [] [] [.int 1, .int 2]).code ∧
    false = (testState [] [] [.int 1, .int 2]).halted ∧
    Value.none = (testState [] [] [.int 1, .int 2]).return_value ∧
    ([] : List (String × Value)) = (testState [] [] [.int 1, .int 2]).vars := by
  have h := C9_call_shares_operand_stack (run 5) ⟨"f", [4], []⟩ []
    (testState [] [] [.int 1, .int 2]) Value.none
    { testState [] [] [.int 2] with stack := [.int 2] } rfl
  simpa using h

/-! ## Claim C10 — AND/OR evaluate both operands -/

/-- C10: `and`/`or` do not short-circuit.  The lowering emits the left
operand's code, then the right operand's code, then the single AND/OR
instruction — there is no jump around the right operand, so its effects
always occur.  The instruction pops right, pops left, and pushes the
Python value of `left and right` / `left or right`. -/
theorem C10_and_or_not_short_circuit :
    (∀ (l r : Expr) (st : AnState),
        (visitExpr (.binary "and" l r) st).1 =
          (visitExpr l st).1 ++ (visitExpr r (visitExpr l st).2).1 ++ [⟨"AND", []⟩]) ∧
    (∀ (l r : Expr) (st : AnState),
        (visitExpr (.binary "or" l r) st).1 =
          (visitExpr l st).1 ++ (visitExpr r (visitExpr l st).2).1 ++ [⟨"OR", []⟩]) ∧
    (∀ (fuel : Nat) (s : VMState) (a b : Value) (rest : List Value),
        s.code[s.pc]? = some 19 → s.stack = b :: a :: rest →
        execInstr fuel s =
          .ok { s with stack := (if truthy a then b else a) :: rest, pc := s.pc + 1 }) ∧
    (∀ (fuel : Nat) (s : VMState) (a b : Value) (rest : List Value),
        s.code[s.pc]? = some 20 → s.stack = b :: a :: rest →
        execInstr fuel s =
          .ok { s with stack := (if truthy a then a else b) :: rest, pc := s.pc + 1 }) := by
  refine ⟨?_, ?_, ?_, ?_⟩
  · intro l r st; simp [visitExpr, binOpIR]
  · intro l r st; simp [visitExpr, binOpIR]
  · intro fuel s a b rest hc hs
    simp [execInstr, execInstrWith, hc, hs]
  · intro fuel s a b rest hc hs
    simp [execInstr, execInstrWith, hc, hs]

theorem C10_and_or_not_short_circuit_witness :
    (visitExpr (.binary "and" (.lit (.bool false)) (.var "y")) initAnState).1 =
      [⟨"LOAD_CONST", [.val (.bool false)]⟩, ⟨"LOAD", [.str "y"]⟩, ⟨"AND", []⟩] ∧
    execInstr 1 (testState [19] [] [.int 2, .int 0]) =
      .ok { testState [19] [] [.int 2, .int 0] with stack := [.int 0], pc := 1 } ∧
    execInstr 1 (testState [20] [] [.int 2, .int 0]) =
      .ok { testState [20] [] [.int 2, .int 0] with stack := [.int 2], pc := 1 } := by
  refine ⟨?_, ?_, ?_⟩
  · have h := C10_and_or_not_short_circuit.1 (.lit (.bool false)) (.var "y") initAnState
    simpa [visitExpr] using h
  · have h := C10_and_or_not_short_circuit.2.2.1 1 (testState [19] [] [.int 2, .int 0])
      (.int 0) (.int 2) [] rfl rfl
    simpa using h
  · have h := C10_and_or_not_short_circuit.2.2.2 1 (testState [20] [] [.int 2, .int 0])
      (.int 0) (.int 2) [] rfl rfl
    simpa using h

/-! ## Claim C6 — the function registry

Machinery: `defLog` (the ghost log of executed DEF_FUNCTION instructions)
is tied to the registry by an invariant preserved by execution, under the
well-formedness assumption that every DEF_FUNCTION instruction names a
function-table entry (true of all bytecode the generator produces from
analyzer output, where `visit_FuncDef` both stores the body and emits the
DEF_FUNCTION). -/

/-- Names currently in the function registry. -/
def regNames (s : VMState) : List String := s.functions.map Prod.fst

/-- Slot `i` of code array `c` is a DEF_FUNCTION whose name operand
resolves to a name pool entry with a function-table entry. -/
def defOk (bc : Bytecode) (code : List Nat) (i : Nat) : Prop :=
  ((bc.names[code.getD (i + 1) 0]?).bind (fun nm => lookupA bc.functions nm)).isSome = true

instance (bc : Bytecode) (code : List Nat) (i : Nat) : Decidable (defOk bc code i) := by
  unfold defOk; infer_instance

/-- Every slot holding opcode 31 (DEF_FUNCTION) in `c` is `defOk`.  (This
also constrains a 31 that appears as an operand — a harmless
over-approximation, and decidable.) -/
def defsInTable (bc : Bytecode) (code : List Nat) : Prop :=
  ∀ i, i < code.length → code[i]? = some 31 → defOk bc code i

instance (bc : Bytecode) (code : List Nat) : Decidable (defsInTable bc code) := by
  unfold defsInTable; infer_instance

/-- Well-formed bytecode for the registry claim: the main code and every
function body name only table-registered functions in their DEF_FUNCTION
instructions. -/
def wfBytecode (bc : Bytecode) : Prop :=
  defsInTable bc bc.code ∧ ∀ p ∈ bc.functions, defsInTable bc p.2.1

instance (bc : Bytecode) : Decidable (wfBytecode bc) := by
  unfold wfBytecode; infer_instance

/-- Execution invariant relative to a fixed bytecode `bc`: the state runs
`bc`, its registry holds exactly the names whose DEF_FUNCTION has executed
(the ghost `defLog`), and the current code and every registered function's
code satisfy `defsInTable`. -/
def RegInv (bc : Bytecode) (s : VMState) : Prop :=
  s.bytecode = bc ∧ regNames s ⊆ s.defLog ∧ s.defLog ⊆ regNames s ∧
  defsInTable bc s.code ∧ ∀ p ∈ s.functions, defsInTable bc p.2.code

/-! ### Association-list lemmas -/

theorem lookupA_assocSet {α : Type} (k n : String) (v : α) (l : List (String × α)) :
    lookupA (assocSet k v l) n = if k = n then some v else lookupA l n := by
  induction l with
  | nil => simp [assocSet, lookupA]
  | cons p rest ih =>
    obtain ⟨k', v'⟩ := p
    by_cases hk : k' = k
    · subst hk
      simp [assocSet, lookupA]
      by_cases hn : k' = n <;> simp [hn, lookupA]
    · simp [assocSet, hk, lookupA]
      by_cases hn : k' = n
      · subst hn
        have : ¬ k = k' := fun h => hk h.symm
        simp [lookupA, this]
      · simp [lookupA, hn, ih]

theorem mem_assocSet {α : Type} (p : String × α) (k : String) (v : α)
    (l : List (String × α)) (h : p ∈ assocSet k v l) : p = (k, v) ∨ p ∈ l := by
  induction l with
  | nil => simpa [assocSet] using h
  | cons q rest ih =>
    obtain ⟨k', v'⟩ := q
    by_cases hk : k' = k
    · subst hk
      simp [assocSet] at h
      rcases h with h | h
      · exact Or.inl h
      · exact Or.inr (List.mem_cons_of_mem _ h)
    · simp [assocSet, hk] at h
      rcases h with h | h
      · exact Or.inr (by simp [h])
      · rcases ih h with h' | h'
        · exact Or.inl h'
        · exact Or.inr (List.mem_cons_of_mem _ h')

theorem mem_map_fst_assocSet {α : Type} (k n : String) (v : α) (l : List (String × α)) :
    n ∈ (assocSet k v l).map Prod.fst ↔ n = k ∨ n ∈ l.map Prod.fst := by
  induction l with
  | nil => simp [assocSet, eq_comm]
  | cons q rest ih =>
    obtain ⟨k', v'⟩ := q
    by_cases hk : k' = k
    · subst hk
      simp [assocSet, eq_comm]
    · simp [assocSet, hk, ih]
      tauto

theorem lookupA_isSome_iff {α : Type} (l : List (String × α)) (n : String) :
    (lookupA l n).isSome = true ↔ n ∈ l.map Prod.fst := by
  induction l with
  | nil => simp [lookupA]
  | cons p rest ih =>
    obtain ⟨k, v⟩ := p
    by_cases hk : k = n
    · subst hk; simp [lookupA]
    · simp [lookupA, hk, ih, Ne.symm hk]

theorem lookupA_eq_none_iff {α : Type} (l : List (String × α)) (n : String) :
    lookupA l n = Option.none ↔ ¬ n ∈ l.map Prod.fst := by
  rw [← lookupA_isSome_iff]
  cases lookupA l n <;> simp

theorem lookupA_mem {α : Type} (l : List (String × α)) (k : String) (v : α)
    (h : lookupA l k = some v) : (k, v) ∈ l := by
  induction l with
  | nil => simp [lookupA] at h
  | cons p rest ih =>
    obtain ⟨k', v'⟩ := p
    by_cases hk : k' = k
    · subst hk
      simp [lookupA] at h
      simp [h]
    · simp [lookupA, hk] at h
      exact List.mem_cons_of_mem _ (ih h)

/-! ### Error-shape lemmas: which errors each auxiliary can raise -/

theorem operand_ok_iff (s : VMState) (k n : Nat) :
    operand s k = .ok n ↔ s.code[s.pc + k]? = some n := by
  unfold operand
  cases s.code[s.pc + k]? <;> simp

theorem operand_err (s : VMState) (k : Nat) (e : VMErr) (h : operand s k = .error e) :
    e = .indexError := by
  unfold operand at h
  cases hx : s.code[s.pc + k]? <;> rw [hx] at h <;> simp_all

theorem popArgs_err (n : Nat) (st : List Value) (e : VMErr)
    (h : popArgs n st = .error e) : e = .stackUnderflow := by
  unfold popArgs at h
  split at h <;> simp_all

theorem pyAdd_err (l r : Value) (e : VMErr) (h : pyAdd l r = .error e) : e = .typeError := by
  unfold pyAdd at h
  split at h <;> try simp_all
  split at h <;> try simp_all
  split at h <;> simp_all

theorem pySub_err (l r : Value) (e : VMErr) (h : pySub l r = .error e) : e = .typeError := by
  unfold pySub at h
  split at h <;> try simp_all
  split at h <;> simp_all

theorem pyMul_err (l r : Value) (e : VMErr) (h : pyMul l r = .error e) : e = .typeError := by
  unfold pyMul at h
  split at h <;> try simp_all
  split at h <;> simp_all

theorem pyDiv_err (l r : Value) (e : VMErr) (h : pyDiv l r = .error e) :
    e = .divisionByZero ∨ e = .typeError := by
  unfold pyDiv at h
  split at h <;> try simp_all
  split at h <;> try simp_all
  split at h <;> simp_all

theorem pyMod_err (l r : Value) (e : VMErr) (h : pyMod l r = .error e) :
    e = .divisionByZero ∨ e = .typeError := by
  unfold pyMod at h
  split at h <;> try simp_all
  split at h <;> try simp_all
  split at h <;> simp_all

theorem pyOrd_err (l r : Value) (e : VMErr) (h : pyOrd l r = .error e) : e = .typeError := by
  unfold pyOrd at h
  split at h <;> try simp_all
  split at h <;> simp_all

theorem pyNeg_err (v : Value) (e : VMErr) (h : pyNeg v = .error e) : e = .typeError := by
  unfold pyNeg at h
  split at h <;> try simp_all
  split at h <;> simp_all

theorem pyPos_err (v : Value) (e : VMErr) (h : pyPos v = .error e) : e = .typeError := by
  unfold pyPos at h
  split at h <;> simp_all

/-- Helper: a successful indexed read determines `List.getD`. -/
theorem getD_of_getElem? {l : List Nat} {i n : Nat} (h : l[i]? = some n) :
    l.getD i 0 = n := by
  simp [List.getD_eq_getElem?_getD, h]

/-! ### One-step characterization of the registry and the ghost log -/

/-- A successful instruction step leaves the code array unchanged, and its
effect on the registry and the DEF log is one of: nothing; a DEF_FUNCTION
(log the name, install the table entry if present); or a completed call,
whose callee started on the caller's registry/log and a registered
function's code. -/
theorem step_ok_spec (recRun : VMState → Except VMErr VMState) (s s' : VMState)
    (h : execInstrWith recRun s = .ok s') :
    s'.code = s.code ∧
    ((s'.bytecode = s.bytecode ∧ s'.functions = s.functions ∧ s'.defLog = s.defLog) ∨
     (∃ nm, s.code[s.pc]? = some 31 ∧
        s.bytecode.names[s.code.getD (s.pc + 1) 0]? = some nm ∧
        s'.bytecode = s.bytecode ∧ s'.defLog = s.defLog ++ [nm] ∧
        ((∃ entry, lookupA s.bytecode.functions nm = some entry ∧
            s'.functions = assocSet nm ⟨nm, entry.1, entry.2⟩ s.functions) ∨
         (lookupA s.bytecode.functions nm = Option.none ∧ s'.functions = s.functions))) ∨
     (∃ fname fobj u s2,
        lookupA s.functions fname = some fobj ∧
        u.bytecode = s.bytecode ∧ u.functions = s.functions ∧ u.defLog = s.defLog ∧
        u.code = fobj.code ∧ recRun u = .ok s2 ∧
        s'.bytecode = s2.bytecode ∧ s'.functions = s2.functions ∧
        s'.defLog = s2.defLog)) := by
  unfold execInstrWith at h
  split at h
  next => exact absurd h (by simp)
  next opcode heq0 =>
  split at h
  all_goals (repeat' split at h)
  all_goals (try (exact (Except.noConfusion h)))
  all_goals (try (injection h with h; subst h; exact ⟨rfl, Or.inl ⟨rfl, rfl, rfl⟩⟩))
  -- remaining goals: the completed CALL_FUNCTION leaf and the two
  -- DEF_FUNCTION leaves (table hit / table miss)
  · -- CALL_FUNCTION, call completed
    rename_i heqNames scrFO fobj heqLook scrPop args rest heqPop scrCall result s1 heqCall
    injection h with h
    subst h
    unfold FunctionObject.call at heqCall
    cases hr : recRun (calleeEntry fobj args { s with stack := rest, pc := s.pc + 3 }) with
    | error e => rw [hr] at heqCall; exact (Except.noConfusion heqCall)
    | ok s2 =>
      rw [hr] at heqCall
      injection heqCall with hp
      obtain ⟨hres, hs1⟩ := Prod.mk.inj hp
      subst hs1
      exact ⟨rfl, Or.inr (Or.inr ⟨_, fobj,
        calleeEntry fobj args { s with stack := rest, pc := s.pc + 3 }, s2,
        heqLook, rfl, rfl, rfl, rfl, hr, rfl, rfl, rfl⟩)⟩
  · -- DEF_FUNCTION, table hit
    rename_i scrOp idx heqOp scrNames funcName heqNames scrLook entry heqLook
    injection h with h
    subst h
    rw [operand_ok_iff] at heqOp
    refine ⟨rfl, Or.inr (Or.inl ⟨funcName, heq0, ?_, rfl, rfl,
      Or.inl ⟨entry, heqLook, rfl⟩⟩)⟩
    rw [getD_of_getElem? heqOp]
    exact heqNames
  · -- DEF_FUNCTION, table miss
    rename_i scrOp idx heqOp scrNames funcName heqNames scrLook heqLook
    injection h with h
    subst h
    rw [operand_ok_iff] at heqOp
    refine ⟨rfl, Or.inr (Or.inl ⟨funcName, heq0, ?_, rfl, rfl, Or.inr ⟨heqLook, rfl⟩⟩)⟩
    rw [getD_of_getElem? heqOp]
    exact heqNames


theorem operand_ne_undef (s : VMState) (k : Nat) (g : String) :
    operand s k ≠ .error (.undefinedFunction g) :=
  fun h => VMErr.noConfusion (operand_err _ _ _ h)

theorem popArgs_ne_undef (n : Nat) (st : List Value) (g : String) :
    popArgs n st ≠ .error (.undefinedFunction g) :=
  fun h => VMErr.noConfusion (popArgs_err _ _ _ h)

theorem pyAdd_ne_undef (l r : Value) (g : String) :
    pyAdd l r ≠ .error (.undefinedFunction g) :=
  fun h => VMErr.noConfusion (pyAdd_err _ _ _ h)

theorem pySub_ne_undef (l r : Value) (g : String) :
    pySub l r ≠ .error (.undefinedFunction g) :=
  fun h => VMErr.noConfusion (pySub_err _ _ _ h)

theorem pyMul_ne_undef (l r : Value) (g : String) :
    pyMul l r ≠ .error (.undefinedFunction g) :=
  fun h => VMErr.noConfusion (pyMul_err _ _ _ h)

theorem pyDiv_ne_undef (l r : Value) (g : String) :
    pyDiv l r ≠ .error (.undefinedFunction g) := by
  intro h
  rcases pyDiv_err _ _ _ h with hh | hh <;> exact VMErr.noConfusion hh

theorem pyMod_ne_undef (l r : Value) (g : String) :
    pyMod l r ≠ .error (.undefinedFunction g) := by
  intro h
  rcases pyMod_err _ _ _ h with hh | hh <;> exact VMErr.noConfusion hh

theorem pyOrd_ne_undef (l r : Value) (g : String) :
    pyOrd l r ≠ .error (.undefinedFunction g) :=
  fun h => VMErr.noConfusion (pyOrd_err _ _ _ h)

theorem pyNeg_ne_undef (v : Value) (g : String) :
    pyNeg v ≠ .error (.undefinedFunction g) :=
  fun h => VMErr.noConfusion (pyNeg_err _ _ h)

theorem pyPos_ne_undef (v : Value) (g : String) :
    pyPos v ≠ .error (.undefinedFunction g) :=
  fun h => VMErr.noConfusion (pyPos_err _ _ h)

/-- An UndefinedFunction error raised by one step comes either from this
very instruction's registry lookup (the name is absent) or from inside a
callee run that started on this state's registry. -/
theorem step_err_spec (recRun : VMState → Except VMErr VMState) (s : VMState) (g : String)
    (h : execInstrWith recRun s = .error (.undefinedFunction g)) :
    lookupA s.functions g = Option.none ∨
    ∃ u, u.functions = s.functions ∧ recRun u = .error (.undefinedFunction g) := by
  unfold execInstrWith at h
  split at h
  next => exact absurd h (by simp)
  next opcode heq0 =>
  split at h
  all_goals (repeat' split at h)
  all_goals (try (exact (Except.noConfusion h)))
  all_goals (try (injection h with h; exact (VMErr.noConfusion h)))
  all_goals
    (try
      (injection h with h
       subst h
       simp_all only [operand_ne_undef, popArgs_ne_undef, pyAdd_ne_undef, pySub_ne_undef,
         pyMul_ne_undef, pyDiv_ne_undef, pyMod_ne_undef, pyOrd_ne_undef, pyNeg_ne_undef,
         pyPos_ne_undef]))
  -- remaining: the CALL_FUNCTION registry miss and the propagated callee error
  · -- CALL_FUNCTION, registry miss
    rename_i scrNames fname heqNames scrLook heqLook
    injection h with h
    injection h with h
    subst h
    exact Or.inl heqLook
  · -- CALL_FUNCTION, error propagated out of the callee
    rename_i scrFO fobj heqLook scrPop args rest heqPop scrCall e2 heqCall
    injection h with h
    subst h
    unfold FunctionObject.call at heqCall
    cases hr : recRun (calleeEntry fobj args { s with stack := rest, pc := s.pc + 3 }) with
    | ok s2 => rw [hr] at heqCall; exact (Except.noConfusion heqCall)
    | error e3 =>
      rw [hr] at heqCall
      injection heqCall with h3
      subst h3
      exact Or.inr ⟨calleeEntry fobj args { s with stack := rest, pc := s.pc + 3 }, rfl, hr⟩

theorem lt_of_getElem? {l : List Nat} {i n : Nat} (h : l[i]? = some n) : i < l.length := by
  by_contra hge
  rw [List.getElem?_eq_none (by omega)] at h
  exact absurd h (by simp)

/-- One successful step can only grow the registry. -/
theorem step_reg_mono (recRun : VMState → Except VMErr VMState)
    (hm : ∀ u u', recRun u = .ok u' → ∀ n, (lookupA u.functions n).isSome = true →
      (lookupA u'.functions n).isSome = true)
    (s s' : VMState) (h : execInstrWith recRun s = .ok s') (n : String)
    (hn : (lookupA s.functions n).isSome = true) :
    (lookupA s'.functions n).isSome = true := by
  obtain ⟨-, hcase⟩ := step_ok_spec recRun s s' h
  rcases hcase with ⟨_, hf, _⟩ | ⟨nm, _, _, _, _, hsub⟩ |
    ⟨fn, fo, u, s2, _, _, huf, _, _, hrun, _, hf2, _⟩
  · rw [hf]; exact hn
  · rcases hsub with ⟨entry, _, hf⟩ | ⟨_, hf⟩
    · rw [hf, lookupA_assocSet]
      split <;> simp [hn]
    · rw [hf]; exact hn
  · rw [hf2]
    exact hm u s2 hrun n (by rw [huf]; exact hn)

/-- A whole run can only grow the registry. -/
theorem run_reg_mono : ∀ (fuel : Nat) (s s' : VMState), run fuel s = .ok s' →
    ∀ n, (lookupA s.functions n).isSome = true → (lookupA s'.functions n).isSome = true := by
  intro fuel
  induction fuel with
  | zero =>
    intro s s' h
    rw [run_zero] at h
    exact absurd h (by simp)
  | succ fuel ih =>
    intro s s' h n hn
    rw [run_succ] at h
    split at h
    · cases hstep : execInstrWith (run fuel) s with
      | error e => rw [hstep] at h; exact absurd h (by simp)
      | ok s1 =>
        rw [hstep] at h
        exact ih s1 s' h n (step_reg_mono (run fuel) ih s s1 hstep n hn)
    · injection h with h
      subst h
      exact hn

/-- A run never raises UndefinedFunction for a name that is registered when
it starts: the registry is monotone, and the raise site requires the name
to be absent at that moment. -/
theorem run_no_undef : ∀ (fuel : Nat) (s : VMState) (g : String),
    (lookupA s.functions g).isSome = true →
    run fuel s ≠ .error (.undefinedFunction g) := by
  intro fuel
  induction fuel with
  | zero =>
    intro s g _ h
    rw [run_zero] at h
    injection h with h
    exact VMErr.noConfusion h
  | succ fuel ih =>
    intro s g hg h
    rw [run_succ] at h
    split at h
    · cases hstep : execInstrWith (run fuel) s with
      | error e =>
        rw [hstep] at h
        injection h with h
        subst h
        rcases step_err_spec (run fuel) s g hstep with hnone | ⟨u, huf, hrun⟩
        · rw [hnone] at hg
          exact absurd hg (by simp)
        · exact ih u g (by rw [huf]; exact hg) hrun
      | ok s1 =>
        rw [hstep] at h
        exact ih s1 g
          (step_reg_mono (run fuel) (fun u u' hu => run_reg_mono fuel u u' hu) s s1 hstep g hg)
          h
    · exact (Except.noConfusion h)

/-- One successful step preserves `RegInv` (given that the runner used for
callees preserves it). -/
theorem step_RegInv (bc : Bytecode) (recRun : VMState → Except VMErr VMState)
    (hwf : wfBytecode bc)
    (hpres : ∀ u u', RegInv bc u → recRun u = .ok u' → RegInv bc u')
    (s s' : VMState) (hInv : RegInv bc s) (h : execInstrWith recRun s = .ok s') :
    RegInv bc s' := by
  obtain ⟨hbc, hrl, hlr, hcode, hregc⟩ := hInv
  obtain ⟨hcode', hcase⟩ := step_ok_spec recRun s s' h
  rcases hcase with ⟨hb, hf, hd⟩ | ⟨nm, hc31, hnm, hb, hd, hsub⟩ |
    ⟨fn, fo, u, s2, hlook, hub, huf, hud, huc, hrun, hb2, hf2, hd2⟩
  · refine ⟨hb.trans hbc, ?_, ?_, ?_, ?_⟩
    · rw [regNames, hf, hd]; exact hrl
    · rw [regNames, hf, hd]; exact hlr
    · rw [hcode']; exact hcode
    · rw [hf]; exact hregc
  · -- a DEF_FUNCTION executed: well-formedness forces a table hit
    have hlt : s.pc < s.code.length := lt_of_getElem? hc31
    have hok := hcode s.pc hlt hc31
    unfold defOk at hok
    rw [← hbc] at hok
    rw [hnm] at hok
    simp only [Option.some_bind] at hok
    rw [lookupA_isSome_iff] at hok
    rcases hsub with ⟨entry, hentry, hf⟩ | ⟨hmiss, _⟩
    · have hmem : (nm, entry) ∈ s.bytecode.functions := lookupA_mem _ _ _ hentry
      refine ⟨hb.trans hbc, ?_, ?_, ?_, ?_⟩
      · intro x hx
        rw [regNames, hf] at hx
        rw [mem_map_fst_assocSet] at hx
        rw [hd]
        rcases hx with hx | hx
        · simp [hx]
        · exact List.mem_append_left _ (hrl hx)
      · intro x hx
        rw [hd] at hx
        rw [regNames, hf, mem_map_fst_assocSet]
        rcases List.mem_append.1 hx with hx | hx
        · exact Or.inr (hlr hx)
        · simp only [List.mem_singleton] at hx
          exact Or.inl hx
      · rw [hcode']; exact hcode
      · intro p hp
        rw [hf] at hp
        rcases mem_assocSet p nm _ s.functions hp with hp | hp
        · subst hp
          exact hwf.2 (nm, entry) (hbc ▸ hmem)
        · exact hregc p hp
    · rw [lookupA_eq_none_iff] at hmiss
      exact absurd hok hmiss
  · -- a call completed; the callee ran under the invariant
    have hmemf : (fn, fo) ∈ s.functions := lookupA_mem _ _ _ hlook
    have hInvU : RegInv bc u := by
      refine ⟨hub.trans hbc, ?_, ?_, ?_, ?_⟩
      · rw [regNames, huf, hud]; exact hrl
      · rw [regNames, huf, hud]; exact hlr
      · rw [huc]; exact hregc (fn, fo) hmemf
      · rw [huf]; exact hregc
    obtain ⟨h2bc, h2rl, h2lr, h2code, h2regc⟩ := hpres u s2 hInvU hrun
    refine ⟨hb2.trans h2bc, ?_, ?_, ?_, ?_⟩
    · rw [regNames, hf2, hd2]; exact h2rl
    · rw [regNames, hf2, hd2]; exact h2lr
    · rw [hcode']; exact hcode
    · rw [hf2]; exact h2regc

/-- A whole run preserves `RegInv`. -/
theorem run_RegInv (bc : Bytecode) (hwf : wfBytecode bc) :
    ∀ (fuel : Nat) (s s' : VMState), RegInv bc s → run fuel s = .ok s' → RegInv bc s' := by
  intro fuel
  induction fuel with
  | zero =>
    intro s s' _ h
    rw [run_zero] at h
    exact absurd h (by simp)
  | succ fuel ih =>
    intro s s' hInv h
    rw [run_succ] at h
    split at h
    · cases hstep : execInstrWith (run fuel) s with
      | error e => rw [hstep] at h; exact absurd h (by simp)
      | ok s1 =>
        rw [hstep] at h
        exact ih s1 s' (step_RegInv bc (run fuel) hwf ih s s1 hInv hstep) h
    · injection h with h
      subst h
      exact hInv

/-- The spec scenario for C6:
`print(add(1, 2)); def add(a, b) { return a + b; }`. -/
def c6Prog : List Stmt :=
  [.printS [.call "add" [.lit (.int 1), .lit (.int 2)]],
   .funcDef "add" ["a", "b"] (.block [.ret (some (.binary "+" (.var "a") (.var "b")))])]

/-- Bytecode for the C6 witness: `CALL f 0; DEF_FUNCTION f` with `f` in the
function table. -/
def c6Bc : Bytecode :=
  { code := [25, 0, 0, 31, 0], constants := [], names := ["f"],
    functions := [("f", ([], []))], labelPositions := [] }

/-- C6: on well-formed bytecode (every DEF_FUNCTION names a function-table
entry — true of everything the generator produces from analyzer output),
the registry invariant `RegInv` holds initially and is preserved by
execution, so at every reachable state the registered names are exactly
the names whose DEF_FUNCTION instruction has executed (the ghost
`defLog`).  Under the invariant, executing CALL_FUNCTION raises
`UndefinedFunction` for the called name IF AND ONLY IF no DEF_FUNCTION for
that name has executed earlier in the run; executing DEF_FUNCTION installs
the table entry under its name, and an association-list set overwrites any
prior entry for the same name; and the spec scenario
`print(add(1,2)); def add(a,b){...}` dies with UndefinedFunction "add". -/
theorem C6_function_registry (bc : Bytecode) (hwf : wfBytecode bc) :
    RegInv bc (initVM bc) ∧
    (∀ (fuel : Nat) (s s' : VMState), RegInv bc s → run fuel s = .ok s' → RegInv bc s') ∧
    (∀ (fuel : Nat) (s : VMState) (idx k : Nat) (fname : String),
        RegInv bc s → s.code[s.pc]? = some 25 → s.code[s.pc + 1]? = some idx →
        s.bytecode.names[idx]? = some fname → s.code[s.pc + 2]? = some k →
        (execInstr fuel s = .error (.undefinedFunction fname) ↔ ¬ fname ∈ s.defLog)) ∧
    (∀ (fuel : Nat) (s : VMState) (idx : Nat) (fname : String)
        (entry : List Nat × List String),
        s.code[s.pc]? = some 31 → s.code[s.pc + 1]? = some idx →
        s.bytecode.names[idx]? = some fname →
        lookupA s.bytecode.functions fname = some entry →
        execInstr fuel s = .ok { s with
          functions := assocSet fname ⟨fname, entry.1, entry.2⟩ s.functions,
          defLog := s.defLog ++ [fname], pc := s.pc + 2 }) ∧
    (∀ (nm : String) (obj : FunctionObject) (l : List (String × FunctionObject)),
        lookupA (assocSet nm obj l) nm = some obj) ∧
    compileAndRun 20 c6Prog = some (.error (.undefinedFunction "add")) := by
  refine ⟨?_, ?_, ?_, ?_, ?_, ?_⟩
  · exact ⟨rfl, by simp [regNames, initVM], by simp [regNames, initVM], hwf.1,
      by simp [initVM]⟩
  · exact fun fuel s s' hInv h => run_RegInv bc hwf fuel s s' hInv h
  · intro fuel s idx k fname hInv hc hi hn hk
    obtain ⟨hbc, hrl, hlr, -, -⟩ := hInv
    constructor
    · intro h hmem
      have hreg : fname ∈ regNames s := hlr hmem
      rw [regNames] at hreg
      rw [← lookupA_isSome_iff] at hreg
      rcases step_err_spec (run fuel) s fname h with hnone | ⟨u, huf, hrun⟩
      · rw [hnone] at hreg
        exact absurd hreg (by simp)
      · exact run_no_undef fuel u fname (by rw [huf]; exact hreg) hrun
    · intro hmem
      have hnr : ¬ fname ∈ regNames s := fun hx => hmem (hrl hx)
      rw [regNames] at hnr
      rw [← lookupA_isSome_iff] at hnr
      have hnone : lookupA s.functions fname = Option.none := by
        cases hx : lookupA s.functions fname with
        | none => rfl
        | some v => rw [hx] at hnr; exact absurd rfl hnr
      simp [execInstr, execInstrWith, operand, hc, hi, hk, hn, hnone]
  · intro fuel s idx fname entry hc hi hn hentry
    simp [execInstr, execInstrWith, operand, hc, hi, hn, hentry]
  · intro nm obj l
    rw [lookupA_assocSet]
    simp
  · rfl

theorem C6_function_registry_witness :
    (execInstr 5 (initVM c6Bc) = .error (.undefinedFunction "f") ↔
      ¬ "f" ∈ (initVM c6Bc).defLog) ∧
    lookupA (assocSet "f" (⟨"f", [], []⟩ : FunctionObject) []) "f" =
      some ⟨"f", [], []⟩ :=
  ⟨(C6_function_registry c6Bc (by decide)).2.2.1 5 (initVM c6Bc) 0 0 "f"
      (C6_function_registry c6Bc (by decide)).1 rfl rfl rfl rfl,
   (C6_function_registry c6Bc (by decide)).2.2.2.2.1 "f" ⟨"f", [], []⟩ []⟩

end PycParser
